import Mathlib

/-!
Verification of the receipt-extraction pipeline in
`src/app/receipt_processor.py` (class `ReceiptProcessor`).

The pipeline is embedded shallowly:

* OCR tokens are `Token` records carrying the recognized text and the
  y-coordinate of the first bounding-box point (`position[0][1]` in the
  source), which is the only position component the pipeline reads.
* Python floats are modelled as exact rationals.  Every numeric value the
  pipeline manipulates is a decimal fraction (a mantissa over a power of
  ten), on which Python float arithmetic of this code path (parsing,
  multiplication by 1000, addition, comparison) is exact for the inputs the
  claims exercise.  We use a dedicated rational type `Q` (numerator,
  denominator, normalized by a structurally-recursive gcd) instead of
  Mathlib's `ℚ` so that the whole pipeline evaluates inside the kernel.
* Python regular-expression searches are hand-compiled, pattern by pattern,
  into scanning functions with Python's leftmost-match and
  greedy-with-backtracking semantics.  `re.search` with an anchored `^`
  (no `re.MULTILINE`) anchors at the start of the whole string; `$` matches
  at the end of the string or just before a final newline; `.` does not
  match a newline; `\s` is ASCII whitespace; `\d` is modelled as an ASCII
  digit and `str.lower` as ASCII lowering (all inputs of interest are
  ASCII).
* `datetime.strptime` is embedded for the fixed format lists the code
  tries, including Python's per-directive regexes, its full-consumption
  requirement and the calendar validation done by the `datetime`
  constructor.
-/

namespace Receipt

/-! ## Exact rationals with kernel-computable normalization -/

/-- Structural-fuel version of `Nat.gcd` so the kernel can reduce it. -/
def gcdAux : Nat → Nat → Nat → Nat
  | 0, _, b => b
  | fuel + 1, a, b => if a = 0 then b else gcdAux fuel (b % a) a

/-- Greatest common divisor, kernel-reducible. Agrees with `Nat.gcd`. -/
def myGcd (a b : Nat) : Nat := gcdAux (a + 1) a b

theorem gcdAux_eq (fuel a b : Nat) (h : a < fuel) : gcdAux fuel a b = Nat.gcd a b := by
  induction fuel generalizing a b with
  | zero => omega
  | succ n ih =>
    unfold gcdAux
    by_cases ha : a = 0
    · simp [ha]
    · have hpos : 0 < a := Nat.pos_of_ne_zero ha
      have hlt : b % a < a := Nat.mod_lt _ hpos
      have : b % a < n := by omega
      rw [if_neg ha, ih _ _ this]
      exact (Nat.gcd_rec a b).symm

theorem myGcd_eq (a b : Nat) : myGcd a b = Nat.gcd a b :=
  gcdAux_eq _ _ _ (Nat.lt_succ_self a)

/-- Exact rational numbers: `num / den`.  All values constructed by the
pipeline go through `mkQ`, which normalizes, so structural equality is
value equality on everything the pipeline produces. -/
structure Q where
  num : Int
  den : Nat
  deriving DecidableEq, Repr

/-- Normalizing constructor: the value `n / d`. -/
def mkQ (n : Int) (d : Nat) : Q :=
  let g := myGcd n.natAbs d
  ⟨Int.ediv n (g : Int), d / g⟩

instance : OfNat Q n := ⟨⟨(n : Int), 1⟩⟩

instance : Add Q := ⟨fun a b => mkQ (a.num * (b.den : Int) + b.num * (a.den : Int)) (a.den * b.den)⟩

instance : Mul Q := ⟨fun a b => mkQ (a.num * b.num) (a.den * b.den)⟩

instance : LE Q := ⟨fun a b => a.num * (b.den : Int) ≤ b.num * (a.den : Int)⟩

instance : LT Q := ⟨fun a b => a.num * (b.den : Int) < b.num * (a.den : Int)⟩

instance (a b : Q) : Decidable (a ≤ b) := Int.decLe _ _

instance (a b : Q) : Decidable (a < b) := Int.decLt _ _

/-- The decimal `m × 10 ^ (-k)`, e.g. `qd 100050 2` is `1000.50`. -/
def qd (m : Int) (k : Nat) : Q := mkQ m (10 ^ k)

/-- Denotation into Mathlib's rationals (sanity bridge). -/
def Q.toRat (q : Q) : ℚ := (q.num : ℚ) / (q.den : ℚ)

theorem Q.le_def (a b : Q) : (a ≤ b) = (a.num * (b.den : Int) ≤ b.num * (a.den : Int)) := rfl

theorem Q.lt_def (a b : Q) : (a < b) = (a.num * (b.den : Int) < b.num * (a.den : Int)) := rfl

theorem Q.zero_num : (0 : Q).num = 0 := rfl

theorem Q.zero_den : (0 : Q).den = 1 := rfl

theorem Q.zero_le_iff (x : Q) : 0 ≤ x ↔ 0 ≤ x.num := by
  rw [show ((0 : Q) ≤ x) = ((0 : Q).num * (x.den : Int) ≤ x.num * ((0 : Q).den : Int)) from rfl]
  simp [Q.zero_num, Q.zero_den]

theorem Q.le_of_lt {a b : Q} (h : a < b) : a ≤ b := by
  rw [Q.le_def]; rw [Q.lt_def] at h; omega

theorem mkQ_num_nonneg {n : Int} (d : Nat) (h : 0 ≤ n) : 0 ≤ (mkQ n d).num := by
  unfold mkQ
  exact Int.ediv_nonneg h (by positivity)

theorem mkQ_nonneg {n : Int} (d : Nat) (h : 0 ≤ n) : (0 : Q) ≤ mkQ n d := by
  rw [Q.zero_le_iff]; exact mkQ_num_nonneg d h

theorem Q.num_nonneg_of_le {x : Q} (h : 0 ≤ x) : 0 ≤ x.num := (Q.zero_le_iff x).mp h

theorem Q.add_nonneg {a b : Q} (ha : 0 ≤ a) (hb : 0 ≤ b) : 0 ≤ a + b := by
  have ha' := Q.num_nonneg_of_le ha
  have hb' := Q.num_nonneg_of_le hb
  show (0 : Q) ≤ mkQ (a.num * (b.den : Int) + b.num * (a.den : Int)) (a.den * b.den)
  exact mkQ_nonneg _ (by positivity)

theorem Q.mul_nonneg {a b : Q} (ha : 0 ≤ a) (hb : 0 ≤ b) : 0 ≤ a * b := by
  have ha' := Q.num_nonneg_of_le ha
  have hb' := Q.num_nonneg_of_le hb
  show (0 : Q) ≤ mkQ (a.num * b.num) (a.den * b.den)
  exact mkQ_nonneg _ (by positivity)

/-! ## Characters and strings: Python-flavoured helpers (ASCII model) -/

/-- Python `\s` (ASCII part): space, tab, newline, carriage return,
vertical tab, form feed. -/
def isPySpace (c : Char) : Bool :=
  c = ' ' || c = '\t' || c = '\n' || c = '\r' || c = '\x0B' || c = '\x0C'

/-- `[A-Za-z]`. -/
def isAsciiLetter (c : Char) : Bool :=
  ('A' ≤ c && c ≤ 'Z') || ('a' ≤ c && c ≤ 'z')

/-- ASCII `str.lower` on one character. -/
def lowerC (c : Char) : Char :=
  if 'A' ≤ c && c ≤ 'Z' then Char.ofNat (c.toNat + 32) else c

/-- ASCII `str.lower`. -/
def pyLower (s : String) : String := String.mk (s.data.map lowerC)

/-- Numeric value of a digit string. -/
def natOfDigits (cs : List Char) : Nat :=
  cs.foldl (fun a c => 10 * a + (c.toNat - 48)) 0

/-- `l` starts with `p`. -/
def startsWithL : List Char → List Char → Bool
  | [], _ => true
  | _ :: _, [] => false
  | p :: ps, c :: cs => p = c && startsWithL ps cs

/-- Python `sub in hay` (substring containment). -/
def infixOf (sub : List Char) : List Char → Bool
  | [] => startsWithL sub []
  | c :: cs => startsWithL sub (c :: cs) || infixOf sub cs

/-- Python `sub in hay` on strings. -/
def containsStr (hay sub : String) : Bool := infixOf sub.data hay.data

/-- `l` ends with `p`. -/
def endsWithL (p l : List Char) : Bool :=
  startsWithL p.reverse l.reverse

/-- Python `str.strip()` on the ASCII whitespace set. -/
def pyStripL (cs : List Char) : List Char :=
  ((cs.dropWhile isPySpace).reverse.dropWhile isPySpace).reverse

/-- Python `str.strip()`. -/
def pyStrip (s : String) : String := String.mk (pyStripL s.data)

/-- Helper for `pyWords`: accumulates the current word (reversed). -/
def pyWordsAux : List Char → List Char → List (List Char)
  | [], acc => if acc = [] then [] else [acc.reverse]
  | c :: cs, acc =>
    if isPySpace c then
      if acc = [] then pyWordsAux cs [] else acc.reverse :: pyWordsAux cs []
    else pyWordsAux cs (c :: acc)

/-- Python `str.split()` (split on whitespace runs, dropping empties). -/
def pyWords (cs : List Char) : List (List Char) := pyWordsAux cs []

/-- Python `hay.find(sub)`: index of first occurrence, `-1` if absent. -/
def pyFindAux (sub : List Char) (i : Nat) : List Char → Int
  | [] => if startsWithL sub [] then (i : Int) else -1
  | c :: cs => if startsWithL sub (c :: cs) then (i : Int) else pyFindAux sub (i + 1) cs

def pyFind (hay sub : List Char) : Int := pyFindAux sub 0 hay

/-- Python slice `s[:n]` (supports negative `n`, clamps like Python). -/
def pySliceTo (cs : List Char) (n : Int) : List Char :=
  if 0 ≤ n then cs.take n.toNat else cs.take ((cs.length : Int) + n).toNat

/-! ## `float()` and `fix_price_format` (receipt_processor.py lines 350-392) -/

/-- Python `float()` restricted to the alphabet that survives
`re.sub(r'[^\d.,]', '', _)`: digits, `.` and `,`.  A comma, more than one
dot, the empty string and a bare `.` raise `ValueError` (here: `none`). -/
def parseFloatQ (cs : List Char) : Option Q :=
  if !(cs.all fun c => c.isDigit || c = '.') then none
  else if 2 ≤ (cs.filter (fun c => c = '.')).length then none
  else
    let ip := cs.takeWhile Char.isDigit
    let rest := cs.drop ip.length
    match rest with
    | [] => if ip.isEmpty then none else some (mkQ (natOfDigits ip : Int) 1)
    | _ :: fp =>
      if ip.isEmpty && fp.isEmpty then none
      else some (mkQ (natOfDigits (ip ++ fp) : Int) (10 ^ fp.length))

/-- `re.sub(r'[^\d.,]', '', price_str)`. -/
def priceClean (s : String) : List Char :=
  s.data.filter fun c => c.isDigit || c = '.' || c = ','

/-- The separator disambiguation of `fix_price_format`: with both `,` and
`.` present, drop dots and turn commas into dots; with `,` only, turn it
into a dot when the string ends in `,00` or `,0`, else drop it. -/
def priceSepNormalize (cs : List Char) : List Char :=
  if cs.contains ',' && cs.contains '.' then
    (cs.filter (fun c => c ≠ '.')).map (fun c => if c = ',' then '.' else c)
  else if cs.contains ',' then
    if endsWithL [',', '0', '0'] cs || endsWithL [',', '0'] cs then
      cs.map (fun c => if c = ',' then '.' else c)
    else cs.filter (fun c => c ≠ ',')
  else cs

/-- The sub-1000 correction: `if 0 < price < 1000: price *= 1000`. -/
def priceHeuristic (p : Q) : Q :=
  if 0 < p ∧ p < 1000 then p * 1000 else p

/-- `fix_price_format` (parse failure prints a warning and returns 0.0). -/
def fixPriceFormat (s : String) : Q :=
  match parseFloatQ (priceSepNormalize (priceClean s)) with
  | none => 0
  | some p => priceHeuristic p

/-! ## The amount regex `(\d{1,3}(?:[.,]\d{3})*(?:[.,]\d{0,3}))` -/

def isSepC (c : Char) : Bool := c = '.' || c = ','

/-- Greedy `\d{0,3}` after a separator. -/
def takeDigits3 (cs : List Char) : List Char := (cs.takeWhile Char.isDigit).take 3

/-- The mandatory final group `(?:[.,]\d{0,3})`. -/
def amtFinal : List Char → Option (List Char)
  | c :: rest => if isSepC c then some (c :: takeDigits3 rest) else none
  | [] => none

/-- `(?:[.,]\d{3})*(?:[.,]\d{0,3})` with Python's greedy backtracking:
prefer consuming a full `[.,]\d{3}` group and recursing; fall back to the
final group at the current position. -/
def amtTail : List Char → Option (List Char)
  | c :: a :: b :: d :: rest =>
    if isSepC c && a.isDigit && b.isDigit && d.isDigit then
      match amtTail rest with
      | some t => some (c :: a :: b :: d :: t)
      | none => amtFinal (c :: a :: b :: d :: rest)
    else amtFinal (c :: a :: b :: d :: rest)
  | cs => amtFinal cs

/-- Try `\d{1,3}` lengths `d, d-1, ..., 1` (greedy-first). -/
def tryAmtLens : Nat → List Char → Option (List Char)
  | 0, _ => none
  | d + 1, cs =>
    match amtTail (cs.drop (d + 1)) with
    | some t => some (cs.take (d + 1) ++ t)
    | none => tryAmtLens d cs

/-- Match the amount pattern at the head of `cs`; returns the consumed
characters (the regex group). -/
def matchAmount (cs : List Char) : Option (List Char) :=
  let drun := cs.takeWhile Char.isDigit
  if drun.isEmpty then none else tryAmtLens (min 3 drun.length) cs

/-- The amount pattern matches the whole string (`re.fullmatch` view). -/
def amountFullMatch (s : String) : Bool :=
  match matchAmount s.data with
  | some g => g.length = s.data.length
  | none => false

/-! ## The price pattern `(?:Rp\.?|Rp)?\s*(<amount>)` -/

/-- Case-insensitive-aware character comparison. -/
def chEq (ic : Bool) (c k : Char) : Bool :=
  if ic then lowerC c = lowerC k else c = k

/-- `\s*(<amount>)`: skip maximal whitespace then match the amount.
Returns total consumed length and the amount group. -/
def wsAmount (cs : List Char) : Option (Nat × List Char) :=
  let w := (cs.takeWhile isPySpace).length
  (matchAmount (cs.drop w)).map fun g1 => (w + g1.length, g1)

/-- `(?:Rp\.?|Rp)?\s*(<amount>)` at the head of `cs` (alternatives tried
in Python's order: `Rp.`, `Rp`, then the empty prefix). -/
def rpWsAmount (ic : Bool) (cs : List Char) : Option (Nat × List Char) :=
  match cs with
  | r :: p :: rest =>
    if chEq ic r 'R' && chEq ic p 'p' then
      match rest with
      | '.' :: rest2 =>
        match wsAmount rest2 with
        | some (n, g1) => some (3 + n, g1)
        | none =>
          match wsAmount rest with
          | some (n, g1) => some (2 + n, g1)
          | none => wsAmount cs
      | _ =>
        match wsAmount rest with
        | some (n, g1) => some (2 + n, g1)
        | none => wsAmount cs
    else wsAmount cs
  | _ => wsAmount cs

/-- A `re.search` match of the price pattern: start position, length of
group 0, and the captured amount (group 1). -/
structure PMatch where
  start : Nat
  glen : Nat
  g1 : List Char
  deriving DecidableEq, Repr

def searchPriceAux (ic : Bool) (i : Nat) : List Char → Option PMatch
  | [] => none
  | c :: cs =>
    match rpWsAmount ic (c :: cs) with
    | some (n, g1) => some ⟨i, n, g1⟩
    | none => searchPriceAux ic (i + 1) cs

/-- `re.search(self.price_pattern, _)`: leftmost match. -/
def searchPrice (ic : Bool) (cs : List Char) : Option PMatch :=
  searchPriceAux ic 0 cs

/-- Group 0 of a price match, as the source's `price_match.group(0)`. -/
def pmG0 (cs : List Char) (m : PMatch) : List Char :=
  (cs.drop m.start).take m.glen

/-! ## The quantity marker `(\d+)\s*[xX]` -/

def qtyAtX (cs : List Char) : Option Nat :=
  let drun := cs.takeWhile Char.isDigit
  if drun.isEmpty then none
  else
    let rest := (cs.drop drun.length).dropWhile isPySpace
    match rest with
    | c :: _ => if c = 'x' || c = 'X' then some (natOfDigits drun) else none
    | [] => none

/-- `re.search(r'(\d+)\s*[xX]', _)`: value of group 1 at the leftmost
match. -/
def searchQtyX : List Char → Option Nat
  | [] => none
  | c :: cs =>
    match qtyAtX (c :: cs) with
    | some q => some q
    | none => searchQtyX cs

/-! ## `extract_quantity_from_name`: `re.match(r'^(\d+)(\s*)(.+)$', _)` -/

/-- `(.+)$`: everything left must be newline-free and non-empty, or have a
single final newline (which `$` absorbs); returns group 3. -/
def dollarPlusGroup (r : List Char) : Option (List Char) :=
  if !r.isEmpty && !r.contains '\n' then some r
  else
    match r.getLast? with
    | some '\n' =>
      let r' := r.dropLast
      if !r'.isEmpty && !r'.contains '\n' then some r' else none
    | _ => none

/-- Backtrack `(\s*)` from `w` whitespace characters down to 0. -/
def trySpaces (rest : List Char) : Nat → Option (List Char)
  | 0 => dollarPlusGroup rest
  | w + 1 =>
    match dollarPlusGroup (rest.drop (w + 1)) with
    | some g => some g
    | none => trySpaces rest w

/-- Backtrack `(\d+)` from length `d` down to 1; returns (group 1 value,
group 3). -/
def tryDigitsQ (cs : List Char) : Nat → Option (Nat × List Char)
  | 0 => none
  | d + 1 =>
    let rest := cs.drop (d + 1)
    match trySpaces rest (rest.takeWhile isPySpace).length with
    | some g => some (natOfDigits (cs.take (d + 1)), g)
    | none => tryDigitsQ cs d

/-- `extract_quantity_from_name` (lines 394-413). -/
def extractQuantityFromName (s : String) : Int × String :=
  let cs := s.data
  let drun := cs.takeWhile Char.isDigit
  if drun.isEmpty then (1, s)
  else
    match tryDigitsQ cs drun.length with
    | some (q, g) => ((q : Int), String.mk g)
    | none => (1, s)

/-! ## The two cleanup substitutions on item names -/

/-- `re.sub(r'^\d+\s*', '', _)` (anchored, at most one replacement). -/
def subLeadingDigitsWs (s : String) : String :=
  let cs := s.data
  let drun := cs.takeWhile Char.isDigit
  if drun.isEmpty then s
  else String.mk ((cs.drop drun.length).dropWhile isPySpace)

/-- `re.sub(r'^\d+\s*[xX]\s*', '', _)` (anchored variant used by the
alternative extractor). -/
def subLeadingDigitsWsX (s : String) : String :=
  let cs := s.data
  let drun := cs.takeWhile Char.isDigit
  if drun.isEmpty then s
  else
    match (cs.drop drun.length).dropWhile isPySpace with
    | x :: after =>
      if x = 'x' || x = 'X' then String.mk (after.dropWhile isPySpace) else s
    | [] => s

theorem dropWhile_length_le (p : α → Bool) : ∀ l : List α, (l.dropWhile p).length ≤ l.length
  | [] => Nat.le_refl _
  | a :: l => by
    by_cases h : p a
    · simpa [List.dropWhile, h] using Nat.le_succ_of_le (dropWhile_length_le p l)
    · simp [List.dropWhile, h]

/-- `re.sub(r'\s*[xX]\s*', '', _)` (global, leftmost non-overlapping). -/
def subAllXAux (cs : List Char) : List Char :=
  match hcs : cs with
  | [] => []
  | c :: rest =>
    let w := (cs.takeWhile isPySpace).length
    match hdrop : cs.drop w with
    | x :: after =>
      if x = 'x' || x = 'X' then subAllXAux (after.dropWhile isPySpace)
      else c :: subAllXAux rest
    | [] => c :: subAllXAux rest
  termination_by cs.length
  decreasing_by
    · have h1 : (x :: after).length = cs.length - w := by
        rw [← hdrop, List.length_drop]
      have h2 : (after.dropWhile isPySpace).length ≤ after.length :=
        dropWhile_length_le _ _
      simp at h1
      subst hcs
      simp at h1 ⊢
      omega
    · subst hcs; simp
    · subst hcs; simp

def subAllX (s : String) : String := String.mk (subAllXAux s.data)

/-! ## The Chatime item pattern
`(\d+)\s*[xX]\s*([A-Za-z\s]+)(?:$$[A-Za-z]$$)?\s*(<amount>)`.
The group `(?:$$[A-Za-z]$$)?` can never consume anything: `$` only matches
at the end of the string (the lines fed to it contain no newline) and no
character can follow the end, so the optional group always matches empty.
After `[xX]`, the leading `\s*` and the greedy `([A-Za-z\s]+)` jointly
consume exactly the maximal run of letters/whitespace, and the amount must
match immediately after that run; group 2 is the run minus the whitespace
the leading `\s*` took (one whitespace character is handed back to group 2
when the run is all whitespace). -/
def chatimeAt (cs : List Char) : Option (Nat × List Char × List Char) :=
  let drun := cs.takeWhile Char.isDigit
  if drun.isEmpty then none
  else
    match (cs.drop drun.length).dropWhile isPySpace with
    | x :: afterx =>
      if x = 'x' || x = 'X' then
        let clsRun := afterx.takeWhile (fun c => isAsciiLetter c || isPySpace c)
        if clsRun.isEmpty then none
        else
          let nw := clsRun.dropWhile isPySpace
          let g2 := if nw.isEmpty then clsRun.drop (clsRun.length - 1) else nw
          match matchAmount (afterx.drop clsRun.length) with
          | some g3 => some (natOfDigits drun, g2, g3)
          | none => none
      else none
    | [] => none

def searchChatime : List Char → Option (Nat × List Char × List Char)
  | [] => none
  | c :: cs =>
    match chatimeAt (c :: cs) with
    | some r => some r
    | none => searchChatime cs

/-! ## `re.match(r'^\s*\d+(?:[.,]\d+)*\s*$', next_line.strip())` -/

def bareAmtTailF : Nat → List Char → Bool
  | 0, cs => cs.isEmpty
  | fuel + 1, cs =>
    match cs with
    | [] => true
    | c :: rest =>
      if isSepC c then
        let ds := rest.takeWhile Char.isDigit
        if ds.isEmpty then false else bareAmtTailF fuel (rest.drop ds.length)
      else false

def bareAmtTail (cs : List Char) : Bool := bareAmtTailF cs.length cs

/-- Full match of a bare grouped amount on an already-stripped string. -/
def bareAmountMatch (s : String) : Bool :=
  let cs := s.data
  let ds := cs.takeWhile Char.isDigit
  if ds.isEmpty then false else bareAmtTail (cs.drop ds.length)

/-! ## Python `int(str)` and `str.split('x', 1)` -/

def pyIntDigitsTailF : Nat → List Char → Bool
  | 0, cs => cs.isEmpty
  | fuel + 1, cs =>
    match cs with
    | [] => true
    | '_' :: rest =>
      let ds := rest.takeWhile Char.isDigit
      if ds.isEmpty then false else pyIntDigitsTailF fuel (rest.drop ds.length)
    | _ => false

def pyIntDigitsTail (cs : List Char) : Bool := pyIntDigitsTailF cs.length cs

def pyIntCore (cs : List Char) : Option Nat :=
  let ds := cs.takeWhile Char.isDigit
  if ds.isEmpty then none
  else if pyIntDigitsTail (cs.drop ds.length) then
    some (natOfDigits (cs.filter Char.isDigit))
  else none

/-- Python `int()` on a string: optional sign, digits with single
underscores between digit groups; surrounding whitespace stripped;
`ValueError` is `none`. -/
def pyInt (s : String) : Option Int :=
  match pyStripL s.data with
  | '-' :: rest => (pyIntCore rest).map (fun n => -(n : Int))
  | '+' :: rest => (pyIntCore rest).map (fun n => (n : Int))
  | cs => (pyIntCore cs).map (fun n => (n : Int))

def pySplit1Aux (c0 : Char) (acc : List Char) : List Char → Option (List Char × List Char)
  | [] => none
  | c :: cs => if c = c0 then some (acc.reverse, cs) else pySplit1Aux c0 (c :: acc) cs

/-- Python `s.split(c, 1)` when the separator occurs (`none` means the
split returns the single-element list `[s]`). -/
def pySplit1 (c0 : Char) (s : String) : Option (String × String) :=
  (pySplit1Aux c0 [] s.data).map (fun p => (String.mk p.1, String.mk p.2))

/-! ## `is_valid_item_name` (lines 280-348) -/

/-- Scan every suffix of the string (all `re.search` start positions). -/
def anyPos (f : List Char → Bool) : List Char → Bool
  | [] => f []
  | c :: cs => f (c :: cs) || anyPos f cs

def chAt (cs : List Char) (i : Nat) : Char := cs.getD i '\x00'

def isSepD (c : Char) : Bool := c = '-' || c = '/' || c = '.'

/-- The date pattern (`\d` 1-2 times, a separator among dash, slash, dot,
`\d` 1-2 times, a separator, `\d` 2-4 times) matches starting here; for
existence the leading digit group can always be taken of length 1. -/
def dateLikeAt (cs : List Char) : Bool :=
  (chAt cs 0).isDigit && isSepD (chAt cs 1) &&
    (((chAt cs 2).isDigit && isSepD (chAt cs 3) && (chAt cs 4).isDigit && (chAt cs 5).isDigit) ||
     ((chAt cs 2).isDigit && (chAt cs 3).isDigit && isSepD (chAt cs 4) &&
        (chAt cs 5).isDigit && (chAt cs 6).isDigit))

/-- `\d{1,2}:\d{2}(?::\d{2})?` matches starting here. -/
def timeLikeAt (cs : List Char) : Bool :=
  (chAt cs 0).isDigit && chAt cs 1 = ':' && (chAt cs 2).isDigit && (chAt cs 3).isDigit

/-- `\d{5}` matches starting here. -/
def fiveDigitsAt (cs : List Char) : Bool :=
  (chAt cs 0).isDigit && (chAt cs 1).isDigit && (chAt cs 2).isDigit &&
    (chAt cs 3).isDigit && (chAt cs 4).isDigit

/-- Consume the optional literal dot of `Rp\.?`. -/
def rpDotSkip : List Char → List Char
  | '.' :: r => r
  | r => r

/-- `Rp\.?\s*\d+` matches starting here (case-sensitive). -/
def rpNumAt : List Char → Bool
  | 'R' :: 'p' :: rest =>
    (match (rpDotSkip rest).dropWhile isPySpace with
     | c :: _ => c.isDigit
     | [] => false)
  | _ => false

/-- `^\d+(\s*\d+)*$`: digits and whitespace only, starting and ending with
a digit (`$` also accepts a single trailing newline). -/
def allDigitsWsCore (cs : List Char) : Bool :=
  !cs.isEmpty && (chAt cs 0).isDigit && (cs.getLastD '\x00').isDigit &&
    cs.all (fun c => c.isDigit || isPySpace c)

def matchAllDigitsWs (cs : List Char) : Bool :=
  allDigitsWsCore cs || (cs.getLast? = some '\n' && allDigitsWsCore cs.dropLast)

/-- The plain literal prefixes of `non_item_patterns` (each regex is
`^<literal>` under `re.search`, i.e. a `startswith` on the lowered text). -/
def nonItemPlainStarts : List String :=
  ["rcpt", "receipt", "invoice", "bill", "order",
   "subtotal", "total", "pajak", "tax",
   "service", "charge", "amount", "jumlah", "tunai",
   "cash", "card", "kartu", "debit", "credit", "kredit",
   "change", "kembalian", "kembali", "date", "time",
   "tanggal", "waktu", "customer", "pelanggan", "thank",
   "sales", "queue", "antrian", "no.",
   "nomor", "table", "meja", "produk", "product",
   "qty", "quantity", "harga", "price", "disc", "discount",
   "potongan", "ppn", "vat", "dpp", "pbj",
   "kec.", "kel.", "jl.", "jln.", "rt.", "rw.",
   "blok", "gedung", "menara", "plaza", "mall", "edc", "bca", "scrp", "pb1rp", "sub"]

def startsSubWsTotal (cs : List Char) : Bool :=
  startsWithL "sub".data cs && startsWithL "total".data ((cs.drop 3).dropWhile isPySpace)

def startsTerimaWsKasih (cs : List Char) : Bool :=
  startsWithL "terima".data cs && startsWithL "kasih".data ((cs.drop 6).dropWhile isPySpace)

def startsSubtotaDigit (cs : List Char) : Bool :=
  startsWithL "subtota".data cs && (chAt cs 7).isDigit

def nonItemAnchoredHit (low : List Char) : Bool :=
  nonItemPlainStarts.any (fun p => startsWithL p.data low) ||
    startsSubWsTotal low || startsTerimaWsKasih low || startsSubtotaDigit low

/-- `self.non_item_keywords` (lines 32-60, duplicates kept). -/
def nonItemKeywords : List String :=
  ["total", "subtotal", "sub total", "pajak", "tax", "service",
   "charge", "amount", "jumlah", "tunai", "cash", "card", "kartu",
   "debit", "credit", "kredit", "change", "kembalian", "kembali",
   "date", "time", "tanggal", "waktu", "receipt", "invoice",
   "customer", "pelanggan", "thank", "terima kasih", "sales",
   "queue", "antrian", "no.", "nomor", "table", "meja", "rcpt",
   "bill", "order", "cashier", "kasir", "pax", "guest", "phone",
   "telp", "address", "alamat", "jalan", "street", "kota", "city",
   "provinsi", "province", "kode pos", "postal code", "zip",
   "npwp", "tax id", "produk", "product", "item", "qty", "quantity",
   "harga", "price", "disc", "discount", "potongan", "ppn", "vat",
   "dpp", "pbj", "gedung", "building", "menara", "tower", "plaza",
   "mall", "kec", "kecamatan", "district", "kelurahan", "desa",
   "village", "rt", "rw", "blok", "block", "jl", "jln", "jalan",
   "street", "avenue", "lane", "road", "boulevard", "highway",
   "kabupaten", "regency", "kota", "city", "provinsi", "province",
   "indonesia", "jakarta", "bandung", "surabaya", "medan", "makassar",
   "semarang", "palembang", "tangerang", "depok", "bekasi", "batam",
   "pekanbaru", "bogor", "padang", "malang", "samarinda", "tasikmalaya",
   "pontianak", "banjarmasin", "balikpapan", "manado", "denpasar",
   "serang", "jambi", "bengkulu", "ambon", "palu", "mataram",
   "kupang", "jayapura", "ternate", "tanjung pinang", "pangkal pinang",
   "gorontalo", "mamuju", "kendari", "banda aceh", "tanjung selor",
   "manokwari", "sofifi", "mamuju", "nabire", "merauke", "sorong",
   "biak", "timika", "wamena", "fakfak", "serui", "tembagapura",
   "subtota1", "subtota2", "subtota3", "subtota4", "subtota5",
   "subtota6", "subtota7", "subtota8", "subtota9", "subtota0"]

/-- `is_valid_item_name`. -/
def isValidItemName (text : String) : Bool :=
  if text.length < 2 then false
  else if matchAllDigitsWs text.data then false
  else if anyPos rpNumAt text.data then false
  else
    let low := (pyLower text).data
    if nonItemAnchoredHit low then false
    else if nonItemKeywords.any (fun k => infixOf k.data low) then false
    else if anyPos dateLikeAt text.data then false
    else if anyPos timeLikeAt text.data then false
    else if anyPos fiveDigitsAt text.data then false
    else
      let ws := pyWords (pyStripL text.data)
      if (match ws.head? with
          | some w => decide (w.map lowerC = "less".data)
          | none => false) then false
      else if ws.length = 2 && decide ((ws.getD 1 []).map lowerC = "less".data) then false
      else true

/-! ## `categorize_item` and the classifier tables -/

/-- `self.categories` (lines 63-70), in dict order. -/
def categoriesTable : List (String × List String) :=
  [("FOOD", ["nasi", "mie", "ayam", "daging", "ikan", "sayur", "sushi", "ramen",
             "butadon", "gyoza", "chicken", "beef", "fish", "rice", "soup"]),
   ("BEVERAGE", ["teh", "tea", "kopi", "coffee", "air", "water", "jus", "juice",
                 "milk", "susu", "cappuccino", "latte", "espresso", "boba", "bubble"]),
   ("SNACK", ["keripik", "chips", "kue", "cake", "coklat", "chocolate", "permen",
              "candy", "cookie", "biskuit", "biscuit"]),
   ("GROCERY", ["beras", "rice", "minyak", "oil", "gula", "sugar", "tepung",
                "flour", "telur", "egg"]),
   ("HOUSEHOLD", ["sabun", "soap", "deterjen", "detergent", "tissue", "pembersih",
                  "cleaner", "sikat", "brush"]),
   ("PERSONAL_CARE", ["shampo", "shampoo", "sikat", "brush", "pasta", "gigi",
                      "tooth", "deodorant", "lotion"])]

/-- `categorize_item` (lines 756-772). -/
def categorizeItem (item_name : String) : String :=
  let low := pyLower item_name
  match categoriesTable.find? (fun ck => ck.2.any (fun k => containsStr low k)) with
  | some ck => ck.1
  | none => "OTHER"

/-- `identify_receipt_type` (lines 129-155). -/
def identifyReceiptType (text : String) : String :=
  let low := pyLower text
  if containsStr low "gomachi" || containsStr low "japanese ramen" || containsStr low "gemachi" then "GOMACHI"
  else if containsStr low "chatime" || containsStr low "milk tea" || containsStr low "chatine" then "CHATIME"
  else if containsStr low "sushigo" || containsStr low "one price sushi" then "SUSHIGO"
  else if containsStr low "hokben" || containsStr low "hoka ichiman" then "HOKBEN"
  else if containsStr low "indomaret" || containsStr low "indomarco" then "INDOMARET"
  else if containsStr low "warung ce" || containsStr low "goldfinch" then "WARUNG_CE"
  else "UNKNOWN"

/-- `extract_payment_method` (lines 844-873), in dict order. -/
def paymentTable : List (String × List String) :=
  [("CASH", ["cash", "tunai", "uang tunai"]),
   ("CARD", ["card", "kartu", "edc"]),
   ("DEBIT", ["debit"]),
   ("CREDIT", ["credit", "kredit", "cc"]),
   ("QR_PAYMENT", ["qr", "qris"]),
   ("OVO", ["ovo"]),
   ("GOPAY", ["gopay", "gojek"]),
   ("DANA", ["dana"]),
   ("BCA", ["bca"]),
   ("MANDIRI", ["mandiri"])]

def extractPaymentMethod (full_text : String) : String :=
  let low := pyLower full_text
  match paymentTable.find? (fun mk => mk.2.any (fun k => containsStr low k)) with
  | some mk => mk.1
  | none => "UNKNOWN"

/-! ## Tokens, the layout sort, and `extract_merchant_name` -/

/-- One OCR text fragment; `y` is `position[0][1]`, the only coordinate
the pipeline reads. -/
structure Token where
  text : String
  y : Int
  deriving DecidableEq, Repr

/-- Stable insertion (an element goes before the first strictly-greater
key and before equal keys of already-placed later elements). -/
def insertToken (t : Token) : List Token → List Token
  | [] => [t]
  | u :: us => if t.y ≤ u.y then t :: u :: us else u :: insertToken t us

/-- `sorted(text_results, key=lambda x: x['position'][0][1])` (stable). -/
def sortTokens : List Token → List Token
  | [] => []
  | t :: ts => insertToken t (sortTokens ts)

/-- The per-token branch chain of `extract_merchant_name` over the first
(at most) five sorted tokens. -/
def merchantScan (rt : String) : List Token → Option String
  | [] => none
  | t :: rest =>
    let tx := t.text
    if rt = "GOMACHI" && (containsStr tx "Gomachi" || containsStr tx "GOMACHI" || containsStr tx "Gemachi") then some "Gomachi"
    else if rt = "CHATIME" && (containsStr tx "Chatime" || containsStr tx "CHATIME" || containsStr tx "Chatine") then some "Chatime"
    else if rt = "SUSHIGO" && (containsStr tx "SUSHIGO" || containsStr tx "Sushigo") then some tx
    else if rt = "HOKBEN" && (containsStr tx "HOKBEN" || containsStr tx "HokBen") then some tx
    else if rt = "INDOMARET" && (containsStr tx "INDOMARET" || containsStr tx "Indomaret") then some tx
    else if rt = "WARUNG_CE" && (containsStr tx "Warung Ce" || containsStr tx "WARUNG CE") then some tx
    else merchantScan rt rest

/-- `extract_merchant_name` (lines 157-190). -/
def extractMerchantName (text_results : List Token) (receipt_type : String) : String :=
  let sorted := sortTokens text_results
  match merchantScan receipt_type (sorted.take 5) with
  | some s => s
  | none =>
    match sorted with
    | [] => "Unknown Merchant"
    | t :: _ => t.text

/-! ## Date/time regex extraction (`extract_date_time`, lines 253-278) -/

def firstSomeL : List (Option α) → Option α
  | [] => none
  | some a :: _ => some a
  | none :: r => firstSomeL r

/-- Take exactly `n` leading digits if available. -/
def digitsTake (cs : List Char) (n : Nat) : Option (List Char × List Char) :=
  if n ≤ (cs.takeWhile Char.isDigit).length then some (cs.take n, cs.drop n) else none

/-- First date alternative (numeric with separators), greedy lengths with
backtracking: digits 2-then-1, separator, digits 2-then-1, separator,
digits 4-then-3-then-2.  Returns the matched substring. -/
def dateAlt1At (cs : List Char) : Option (List Char) :=
  firstSomeL ([2, 1].map fun n1 =>
    match digitsTake cs n1 with
    | none => none
    | some (g1, r1) =>
      match r1 with
      | s1 :: r2 =>
        if isSepD s1 then
          firstSomeL ([2, 1].map fun n2 =>
            match digitsTake r2 n2 with
            | none => none
            | some (g2, r3) =>
              match r3 with
              | s2 :: r4 =>
                if isSepD s2 then
                  firstSomeL ([4, 3, 2].map fun n3 =>
                    match digitsTake r4 n3 with
                    | none => none
                    | some (g3, _) => some (g1 ++ s1 :: g2 ++ s2 :: g3))
                else none
              | [] => none)
        else none
      | [] => none)

/-- Second date alternative: `\d` 1-2 times, `\s+`, `[A-Za-z]+`, `\s+`,
`\d` 2-4 times (all greedy; the inner runs are deterministic). -/
def dateAlt2At (cs : List Char) : Option (List Char) :=
  firstSomeL ([2, 1].map fun n1 =>
    match digitsTake cs n1 with
    | none => none
    | some (g1, r1) =>
      let w1 := r1.takeWhile isPySpace
      if w1.isEmpty then none
      else
        let r2 := r1.drop w1.length
        let ls := r2.takeWhile isAsciiLetter
        if ls.isEmpty then none
        else
          let r3 := r2.drop ls.length
          let w2 := r3.takeWhile isPySpace
          if w2.isEmpty then none
          else
            let r4 := r3.drop w2.length
            let ds := r4.takeWhile Char.isDigit
            if ds.length < 2 then none
            else some (g1 ++ w1 ++ ls ++ w2 ++ ds.take (min 4 ds.length)))

/-- `re.search(self.date_pattern, _)`: leftmost match, first alternative
preferred at each position. -/
def searchDate : List Char → Option (List Char)
  | [] => none
  | c :: cs =>
    match dateAlt1At (c :: cs) with
    | some g => some g
    | none =>
      match dateAlt2At (c :: cs) with
      | some g => some g
      | none => searchDate cs

/-- The time pattern `\d` 1-2 times, `:`, `\d\d`, optional `:\d\d`
(greedy). -/
def timeAt (cs : List Char) : Option (List Char) :=
  firstSomeL ([2, 1].map fun n1 =>
    match digitsTake cs n1 with
    | none => none
    | some (g1, r1) =>
      match r1 with
      | ':' :: a :: b :: r3 =>
        if a.isDigit && b.isDigit then
          match r3 with
          | ':' :: c2 :: d2 :: _ =>
            if c2.isDigit && d2.isDigit then some (g1 ++ ':' :: a :: b :: ':' :: c2 :: [d2])
            else some (g1 ++ ':' :: a :: [b])
          | _ => some (g1 ++ ':' :: a :: [b])
        else none
      | _ => none)

def searchTime : List Char → Option (List Char)
  | [] => none
  | c :: cs =>
    match timeAt (c :: cs) with
    | some g => some g
    | none => searchTime cs

/-! ## `datetime.strptime` for the fixed format lists
(`standardize_date_format` lines 192-223, `standardize_time_format`
lines 225-251).  Each directive is embedded with CPython's `_strptime`
regex (alternatives in order, so two-digit readings are preferred), the
match must consume the whole string, and the `datetime` constructor's
calendar validation is applied afterwards. -/

inductive DTok where
  | dday | dmonth | dy4 | dy2 | dbFull | dbAbbr
  | dh24 | dminute | dsecond | dh12 | dampm
  | dlit (c : Char) | dws
  deriving DecidableEq

structure DTState where
  dayv : Nat := 1
  monthv : Nat := 1
  yearv : Nat := 1900
  hourv : Nat := 0
  minutev : Nat := 0
  secondv : Nat := 0
  pmv : Option Bool := none
  deriving DecidableEq, Repr

def digitVal (c : Char) : Nat := c.toNat - 48

/-- `%d` = `(3[01]|[12]\d|0[1-9]|[1-9])`: candidate values with the rest
of the input, two-digit readings first. -/
def dayCands : List Char → List (Nat × List Char)
  | a :: b :: rest =>
    (if a = '3' && (b = '0' || b = '1') then [(30 + digitVal b, rest)]
     else if (a = '1' || a = '2') && b.isDigit then [(10 * digitVal a + digitVal b, rest)]
     else if a = '0' && b.isDigit && b ≠ '0' then [(digitVal b, rest)]
     else []) ++
    (if a.isDigit && a ≠ '0' then [(digitVal a, b :: rest)] else [])
  | [a] => if a.isDigit && a ≠ '0' then [(digitVal a, [])] else []
  | [] => []

/-- `%m` and `%I` = `(1[0-2]|0[1-9]|[1-9])`. -/
def monthCands : List Char → List (Nat × List Char)
  | a :: b :: rest =>
    (if a = '1' && (b = '0' || b = '1' || b = '2') then [(10 + digitVal b, rest)]
     else if a = '0' && b.isDigit && b ≠ '0' then [(digitVal b, rest)]
     else []) ++
    (if a.isDigit && a ≠ '0' then [(digitVal a, b :: rest)] else [])
  | [a] => if a.isDigit && a ≠ '0' then [(digitVal a, [])] else []
  | [] => []

/-- `%H` = `(2[0-3]|[0-1]\d|\d)`. -/
def h24Cands : List Char → List (Nat × List Char)
  | a :: b :: rest =>
    (if a = '2' && (b = '0' || b = '1' || b = '2' || b = '3') then [(20 + digitVal b, rest)]
     else if (a = '0' || a = '1') && b.isDigit then [(10 * digitVal a + digitVal b, rest)]
     else []) ++
    (if a.isDigit then [(digitVal a, b :: rest)] else [])
  | [a] => if a.isDigit then [(digitVal a, [])] else []
  | [] => []

/-- `%M` = `([0-5]\d|\d)`. -/
def minuteCands : List Char → List (Nat × List Char)
  | a :: b :: rest =>
    (if ('0' ≤ a && a ≤ '5') && b.isDigit then [(10 * digitVal a + digitVal b, rest)]
     else []) ++
    (if a.isDigit then [(digitVal a, b :: rest)] else [])
  | [a] => if a.isDigit then [(digitVal a, [])] else []
  | [] => []

/-- `%S` = `(6[0-1]|[0-5]\d|\d)`. -/
def secondCands : List Char → List (Nat × List Char)
  | a :: b :: rest =>
    (if a = '6' && (b = '0' || b = '1') then [(60 + digitVal b, rest)]
     else if ('0' ≤ a && a ≤ '5') && b.isDigit then [(10 * digitVal a + digitVal b, rest)]
     else []) ++
    (if a.isDigit then [(digitVal a, b :: rest)] else [])
  | [a] => if a.isDigit then [(digitVal a, [])] else []
  | [] => []

/-- `%Y`: exactly four digits. -/
def y4Cands (cs : List Char) : List (Nat × List Char) :=
  match digitsTake cs 4 with
  | some (g, rest) => [(natOfDigits g, rest)]
  | none => []

/-- `%y`: exactly two digits; 00-68 map to 2000+, 69-99 to 1900+. -/
def y2Cands (cs : List Char) : List (Nat × List Char) :=
  match digitsTake cs 2 with
  | some (g, rest) =>
    let v := natOfDigits g
    [(if v ≤ 68 then 2000 + v else 1900 + v, rest)]
  | none => []

def monthNamesFull : List (Nat × String) :=
  [(1, "january"), (2, "february"), (3, "march"), (4, "april"), (5, "may"),
   (6, "june"), (7, "july"), (8, "august"), (9, "september"), (10, "october"),
   (11, "november"), (12, "december")]

def monthNamesAbbr : List (Nat × String) :=
  [(1, "jan"), (2, "feb"), (3, "mar"), (4, "apr"), (5, "may"), (6, "jun"),
   (7, "jul"), (8, "aug"), (9, "sep"), (10, "oct"), (11, "nov"), (12, "dec")]

/-- `%B` / `%b`: case-insensitive month-name match (no name is a prefix of
another within a table, so at most one candidate). -/
def monthNameCands (tbl : List (Nat × String)) (cs : List Char) : List (Nat × List Char) :=
  tbl.filterMap fun mn =>
    if startsWithL mn.2.data (cs.map lowerC) then some (mn.1, cs.drop mn.2.length)
    else none

/-- `%p`: `AM` or `PM`, case-insensitive. -/
def ampmCands (cs : List Char) : List (Bool × List Char) :=
  if startsWithL "am".data (cs.map lowerC) then [(false, cs.drop 2)]
  else if startsWithL "pm".data (cs.map lowerC) then [(true, cs.drop 2)]
  else []

/-- Run a format token list; the whole input must be consumed
(`_strptime` raises when `found.end() != len(data_string)`). -/
def runToks : List DTok → List Char → DTState → Option DTState
  | [], cs, st => if cs.isEmpty then some st else none
  | .dday :: toks, cs, st =>
    (match dayCands cs with
     | [] => none
     | [c1] => runToks toks c1.2 { st with dayv := c1.1 }
     | c1 :: c2 :: _ =>
       match runToks toks c1.2 { st with dayv := c1.1 } with
       | some r => some r
       | none => runToks toks c2.2 { st with dayv := c2.1 })
  | .dmonth :: toks, cs, st =>
    (match monthCands cs with
     | [] => none
     | [c1] => runToks toks c1.2 { st with monthv := c1.1 }
     | c1 :: c2 :: _ =>
       match runToks toks c1.2 { st with monthv := c1.1 } with
       | some r => some r
       | none => runToks toks c2.2 { st with monthv := c2.1 })
  | .dy4 :: toks, cs, st =>
    (match y4Cands cs with
     | [] => none
     | c1 :: _ => runToks toks c1.2 { st with yearv := c1.1 })
  | .dy2 :: toks, cs, st =>
    (match y2Cands cs with
     | [] => none
     | c1 :: _ => runToks toks c1.2 { st with yearv := c1.1 })
  | .dbFull :: toks, cs, st =>
    (match monthNameCands monthNamesFull cs with
     | [] => none
     | c1 :: _ => runToks toks c1.2 { st with monthv := c1.1 })
  | .dbAbbr :: toks, cs, st =>
    (match monthNameCands monthNamesAbbr cs with
     | [] => none
     | c1 :: _ => runToks toks c1.2 { st with monthv := c1.1 })
  | .dh24 :: toks, cs, st =>
    (match h24Cands cs with
     | [] => none
     | [c1] => runToks toks c1.2 { st with hourv := c1.1 }
     | c1 :: c2 :: _ =>
       match runToks toks c1.2 { st with hourv := c1.1 } with
       | some r => some r
       | none => runToks toks c2.2 { st with hourv := c2.1 })
  | .dminute :: toks, cs, st =>
    (match minuteCands cs with
     | [] => none
     | [c1] => runToks toks c1.2 { st with minutev := c1.1 }
     | c1 :: c2 :: _ =>
       match runToks toks c1.2 { st with minutev := c1.1 } with
       | some r => some r
       | none => runToks toks c2.2 { st with minutev := c2.1 })
  | .dsecond :: toks, cs, st =>
    (match secondCands cs with
     | [] => none
     | [c1] => runToks toks c1.2 { st with secondv := c1.1 }
     | c1 :: c2 :: _ =>
       match runToks toks c1.2 { st with secondv := c1.1 } with
       | some r => some r
       | none => runToks toks c2.2 { st with secondv := c2.1 })
  | .dh12 :: toks, cs, st =>
    (match monthCands cs with
     | [] => none
     | [c1] => runToks toks c1.2 { st with hourv := c1.1 }
     | c1 :: c2 :: _ =>
       match runToks toks c1.2 { st with hourv := c1.1 } with
       | some r => some r
       | none => runToks toks c2.2 { st with hourv := c2.1 })
  | .dampm :: toks, cs, st =>
    (match ampmCands cs with
     | [] => none
     | c1 :: _ => runToks toks c1.2 { st with pmv := some c1.1 })
  | .dlit c :: toks, cs, st =>
    (match cs with
     | c' :: rest => if c' = c then runToks toks rest st else none
     | [] => none)
  | .dws :: toks, cs, st =>
    let w := cs.takeWhile isPySpace
    if w.isEmpty then none else runToks toks (cs.drop w.length) st

/-- The `date_formats` list of `standardize_date_format`, in order. -/
def dateFormats : List (List DTok) :=
  [[.dday, .dlit '/', .dmonth, .dlit '/', .dy4],
   [.dday, .dlit '/', .dmonth, .dlit '/', .dy2],
   [.dday, .dlit '-', .dmonth, .dlit '-', .dy4],
   [.dday, .dlit '-', .dmonth, .dlit '-', .dy2],
   [.dday, .dlit '.', .dmonth, .dlit '.', .dy4],
   [.dday, .dlit '.', .dmonth, .dlit '.', .dy2],
   [.dday, .dws, .dbFull, .dws, .dy4],
   [.dday, .dws, .dbAbbr, .dws, .dy4],
   [.dy4, .dlit '/', .dmonth, .dlit '/', .dday],
   [.dy2, .dlit '/', .dmonth, .dlit '/', .dday],
   [.dy4, .dlit '-', .dmonth, .dlit '-', .dday],
   [.dy2, .dlit '-', .dmonth, .dlit '-', .dday],
   [.dy4, .dlit '.', .dmonth, .dlit '.', .dday],
   [.dy2, .dlit '.', .dmonth, .dlit '.', .dday],
   [.dbFull, .dws, .dday, .dws, .dy4],
   [.dbAbbr, .dws, .dday, .dws, .dy4]]

/-- The `time_formats` list of `standardize_time_format`, in order. -/
def timeFormats : List (List DTok) :=
  [[.dh24, .dlit ':', .dminute, .dlit ':', .dsecond],
   [.dh24, .dlit ':', .dminute],
   [.dh12, .dlit ':', .dminute, .dlit ':', .dsecond, .dws, .dampm],
   [.dh12, .dlit ':', .dminute, .dws, .dampm]]

def isLeap (y : Nat) : Bool := y % 4 = 0 && (y % 100 ≠ 0 || y % 400 = 0)

def daysInMonth (y m : Nat) : Nat :=
  if m = 2 then (if isLeap y then 29 else 28)
  else if m = 4 || m = 6 || m = 9 || m = 11 then 30
  else 31

/-- The `datetime(...)` constructor checks. -/
def validDate (st : DTState) : Bool :=
  1 ≤ st.yearv && st.yearv ≤ 9999 && 1 ≤ st.monthv && st.monthv ≤ 12 &&
    1 ≤ st.dayv && st.dayv ≤ daysInMonth st.yearv st.monthv

/-- `datetime` rejects the leap seconds the `%S` regex admits. -/
def validTime (st : DTState) : Bool := st.secondv ≤ 59

/-- `%p` handling: AM maps 12 to 0, PM adds 12 except to 12. -/
def adjustHour (st : DTState) : Nat :=
  match st.pmv with
  | none => st.hourv
  | some false => if st.hourv = 12 then 0 else st.hourv
  | some true => if st.hourv = 12 then 12 else st.hourv + 12

def natDigitChar (n : Nat) : Char := Char.ofNat (48 + n)

def natToDigitsAux : Nat → Nat → List Char → List Char
  | 0, _, acc => acc
  | fuel + 1, n, acc =>
    if n < 10 then natDigitChar n :: acc
    else natToDigitsAux fuel (n / 10) (natDigitChar (n % 10) :: acc)

def natToDigits (n : Nat) : List Char := natToDigitsAux (n + 1) n []

def natToStr (n : Nat) : String := String.mk (natToDigits n)

def pad2 (n : Nat) : String := if n < 10 then "0" ++ natToStr n else natToStr n

def pad4 (n : Nat) : String :=
  (if n < 10 then "000" else if n < 100 then "00" else if n < 1000 then "0" else "") ++ natToStr n

def tryDateFormats : List (List DTok) → List Char → Option (Nat × Nat × Nat)
  | [], _ => none
  | f :: fs, cs =>
    match runToks f cs {} with
    | some st =>
      if validDate st then some (st.dayv, st.monthv, st.yearv) else tryDateFormats fs cs
    | none => tryDateFormats fs cs

/-- `standardize_date_format`: first parsing format wins, rendered as
`DD/MM/YYYY`; an unparsable string is returned unchanged. -/
def standardizeDateFormat (s : String) : String :=
  if s = "" then ""
  else
    match tryDateFormats dateFormats s.data with
    | some (d, m, y) => pad2 d ++ "/" ++ pad2 m ++ "/" ++ pad4 y
    | none => s

def tryTimeFormats : List (List DTok) → List Char → Option (Nat × Nat)
  | [], _ => none
  | f :: fs, cs =>
    match runToks f cs {} with
    | some st =>
      if validTime st then some (adjustHour st, st.minutev) else tryTimeFormats fs cs
    | none => tryTimeFormats fs cs

/-- `standardize_time_format`: rendered as `HH:MM`. -/
def standardizeTimeFormat (s : String) : String :=
  if s = "" then ""
  else
    match tryTimeFormats timeFormats s.data with
    | some (h, m) => pad2 h ++ ":" ++ pad2 m
    | none => s

/-- `extract_date_time` (lines 253-278). -/
def extractDateTime (full_text : String) : String × String :=
  ((match searchDate full_text.data with
    | some d => standardizeDateFormat (String.mk d)
    | none => ""),
   (match searchTime full_text.data with
    | some t => standardizeTimeFormat (String.mk t)
    | none => ""))

/-! ## Line items -/

structure Item where
  name : String
  quantity : Int
  price : Q
  category : String
  deriving DecidableEq, Repr

def headerKw : List String := ["item", "description", "qty", "price", "amount", "jumlah"]

def footerKw : List String := ["subtotal", "sub total", "total", "pajak", "tax"]

def prevNameKw : List String := ["item", "description", "qty", "price"]

/-- One iteration of the generic boundary-based `extract_items` loop
(lines 545-595) at index `i` into the sorted token list. -/
def genericItemAt (sorted : List Token) (i : Nat) : Option Item :=
  let line := (sorted.getD i ⟨"", 0⟩).text
  match searchPrice false line.data with
  | none => none
  | some m =>
    let price := fixPriceFormat (String.mk m.g1)
    let nameA := pyStrip (String.mk (pySliceTo line.data (pyFind line.data (pmG0 line.data m))))
    let nameB :=
      if nameA = "" && 0 < i then
        let prev := (sorted.getD (i - 1) ⟨"", 0⟩).text
        if (searchPrice false prev.data).isNone &&
            !(prevNameKw.any (fun k => containsStr (pyLower prev) k)) then prev
        else nameA
      else nameA
    let q0 : Int :=
      match searchQtyX line.data with
      | some q => (q : Int)
      | none => 1
    if nameB ≠ "" && 2 ≤ nameB.length then
      if isValidItemName nameB then
        let nq := extractQuantityFromName nameB
        let q1 := if 1 < nq.1 then nq.1 else q0
        let name1 := if 1 < nq.1 then nq.2 else nameB
        let name2 := subAllX (subLeadingDigitsWs name1)
        some ⟨name2, q1, price, categorizeItem name2⟩
      else none
    else none

/-- `full_text.split('\\n')` (kernel-reducible replacement for
`String.splitOn`). -/
def splitLinesAux : List Char → List Char → List String
  | [], acc => [String.mk acc.reverse]
  | c :: cs, acc =>
    if c = '\n' then String.mk acc.reverse :: splitLinesAux cs []
    else splitLinesAux cs (c :: acc)

def splitLines (s : String) : List String := splitLinesAux s.data []

/-- One iteration of the text-line fallback loop of
`extract_items_alternative` (lines 617-671). -/
def altItemAt (lines : List String) (i : Nat) : Option Item :=
  if i < 3 then none
  else
    let line := lines.getD i ""
    if footerKw.any (fun k => containsStr (pyLower line) k) then none
    else
      match searchPrice false line.data with
      | none => none
      | some m =>
        let price := fixPriceFormat (String.mk m.g1)
        let nameA := pyStrip (String.mk (pySliceTo line.data (pyFind line.data (pmG0 line.data m))))
        let nameB :=
          if nameA = "" && 0 < i then
            (if isValidItemName (lines.getD (i - 1) "") then lines.getD (i - 1) "" else nameA)
          else nameA
        let q0 : Int :=
          match searchQtyX line.data with
          | some q => (q : Int)
          | none => 1
        if isValidItemName nameB then
          let nq := extractQuantityFromName nameB
          let q1 := if 1 < nq.1 then nq.1 else q0
          let name1 := if 1 < nq.1 then nq.2 else nameB
          let name2 := subLeadingDigitsWsX (subLeadingDigitsWs name1)
          some ⟨name2, q1, price, categorizeItem name2⟩
        else none

/-- The quantity logic shared by the SushiGo/Gomachi special scans:
a `(\d+)\s*[xX]` marker wins, else a leading quantity in the stripped
line rebinds `line`. -/
def specialQtyLine (line : String) : Int × String :=
  match searchQtyX line.data with
  | some q => ((q : Int), line)
  | none =>
    let nq := extractQuantityFromName (pyStrip line)
    if 1 < nq.1 then (nq.1, nq.2) else (1, line)

/-- One iteration of the SushiGo special scan (lines 674-709). -/
def sushigoItemAt (lines : List String) (i : Nat) : Option Item :=
  let line := lines.getD i ""
  if containsStr line "PIRING" || containsStr line "PLATE" then
    match searchPrice false line.data with
    | none => none
    | some m =>
      let price := fixPriceFormat (String.mk m.g1)
      let ql := specialQtyLine line
      if isValidItemName (pyStrip ql.2) then
        some ⟨pyStrip ql.2, ql.1, price, "FOOD"⟩
      else none
  else none

/-- One iteration of the Gomachi special scan (lines 711-752); the price
may come from the next line. -/
def gomachiItemAt (lines : List String) (i : Nat) : Option Item :=
  let line := lines.getD i ""
  if containsStr line "BUTADON" || containsStr line "RAMEN" || containsStr line "GYOZA" then
    let price : Q :=
      match searchPrice false line.data with
      | some m => fixPriceFormat (String.mk m.g1)
      | none =>
        if i + 1 < lines.length then
          match searchPrice false (lines.getD (i + 1) "").data with
          | some m => fixPriceFormat (String.mk m.g1)
          | none => 0
        else 0
    if 0 < price then
      if isValidItemName (pyStrip line) then
        let ql := specialQtyLine line
        some ⟨pyStrip ql.2, ql.1, price, "FOOD"⟩
      else none
    else none
  else none

/-- `extract_items_alternative` (lines 603-754). -/
def extractItemsAlternative (full_text : String) (receipt_type : String) : List Item :=
  let lines := splitLines full_text
  let items := (List.range lines.length).filterMap (altItemAt lines)
  if receipt_type = "SUSHIGO" && items.isEmpty then
    (List.range lines.length).filterMap (sushigoItemAt lines)
  else if receipt_type = "GOMACHI" && items.isEmpty then
    (List.range lines.length).filterMap (gomachiItemAt lines)
  else items

/-- One iteration of the first Chatime loop (lines 432-453), with the
`SUGAR` modifier look-ahead. -/
def chatimeItemAt (lines : List String) (i : Nat) : Option Item :=
  let line := lines.getD i ""
  match searchChatime line.data with
  | none => none
  | some (q, g2, g3) =>
    let name0 := pyStrip (String.mk g2)
    let price := fixPriceFormat (String.mk g3)
    let name1 :=
      if i + 1 < lines.length && containsStr (lines.getD (i + 1) "") "SUGAR" then
        name0 ++ " (" ++ pyStrip (lines.getD (i + 1) "") ++ ")"
      else name0
    some ⟨name1, (q : Int), price, categorizeItem name1⟩

/-- One iteration of the second Chatime loop (lines 456-494): an `x`
delimited line, price from the line or a bare-amount next line,
`int(parts[0])` with `ValueError` skipping the line. -/
def chatime2ItemAt (lines : List String) (i : Nat) : Option Item :=
  let line := lines.getD i ""
  if !(containsStr (pyLower line) "x") then none
  else if ["subtotal", "total", "tax"].any (fun k => containsStr (pyLower line) k) then none
  else
    let pm := searchPrice false line.data
    let price : Q :=
      match pm with
      | some m => fixPriceFormat (String.mk m.g1)
      | none =>
        if i + 1 < lines.length && bareAmountMatch (pyStrip (lines.getD (i + 1) "")) then
          fixPriceFormat (pyStrip (lines.getD (i + 1) ""))
        else 0
    if 0 < price then
      match pySplit1 'x' line with
      | none => none
      | some ba =>
        match pyInt (pyStrip ba.1) with
        | none => none
        | some q =>
          let nameA := pyStrip ba.2
          let nameB :=
            match pm with
            | some m =>
              let cut := pyStrip (String.mk (pySliceTo line.data (pyFind line.data (pmG0 line.data m))))
              if containsStr cut "x" then
                (match pySplit1 'x' cut with
                 | some p2 => pyStrip p2.2
                 | none => cut)
              else cut
            | none => nameA
          some ⟨nameB, q, price, categorizeItem nameB⟩
    else none

/-- `extract_items_from_chatime_receipt` (lines 415-496). -/
def extractItemsFromChatimeReceipt (text_results : List Token) (full_text : String) : List Item :=
  let lines := splitLines full_text
  let items := (List.range lines.length).filterMap (chatimeItemAt lines)
  if items.isEmpty then (List.range lines.length).filterMap (chatime2ItemAt lines)
  else items

/-- `extract_items` (lines 498-601): Chatime dispatch, header/footer
boundary detection over the y-sorted tokens (Python `int(n*0.15)` and
`int(n*0.85)` are the floors `15n/100` and `85n/100` here; the float
product rounds to the same integer), then the generic loop, falling back
to `extract_items_alternative`. -/
def extractItems (text_results : List Token) (receipt_type : String) (full_text : String) : List Item :=
  if receipt_type = "CHATIME" then extractItemsFromChatimeReceipt text_results full_text
  else
    let sorted := sortTokens text_results
    let n := sorted.length
    let he0 : Int :=
      match sorted.findIdx? (fun t => headerKw.any (fun k => containsStr (pyLower t.text) k)) with
      | some i => (i : Int) + 1
      | none => 0
    let he : Int := if he0 == 0 then max 5 ((15 * (Int.ofNat n)) / 100) else he0
    let fs0 : Int :=
      match sorted.findIdx? (fun t => footerKw.any (fun k => containsStr (pyLower t.text) k)) with
      | some i => (i : Int)
      | none => Int.ofNat n
    let fs : Int := if fs0 == Int.ofNat n then min ((Int.ofNat n) - 5) ((85 * (Int.ofNat n)) / 100) else fs0
    let items := ((List.range n).filter
        (fun (i : Nat) => decide (he ≤ (i : Int) ∧ (i : Int) < fs))).filterMap
      (genericItemAt sorted)
    if items.isEmpty then extractItemsAlternative full_text receipt_type else items

/-! ## `extract_totals` (lines 774-815) and `calculate_total` (817-842) -/

/-- The lazy gap `.*?` (which cannot cross a newline) followed by
`(?:Rp\.?|Rp)?\s*(<amount>)`, the shortest gap first. -/
def dotGapAmount : List Char → Option (List Char)
  | [] => none
  | c :: rest =>
    match rpWsAmount true (c :: rest) with
    | some g => some g.2
    | none => if c = '\n' then none else dotGapAmount rest

def startsWithCI (p : String) (cs : List Char) : Bool :=
  startsWithL p.data (cs.map lowerC)

/-- `(?:subtotal|sub\s*total)` at the head: matched length. -/
def subtotalKwLen (cs : List Char) : Option Nat :=
  if startsWithCI "subtotal" cs then some 8
  else if startsWithCI "sub" cs then
    let w := ((cs.drop 3).takeWhile isPySpace).length
    if startsWithCI "total" (cs.drop (3 + w)) then some (3 + w + 5) else none
  else none

/-- `(?:tax|pajak|pb1)` at the head. -/
def taxKwLen (cs : List Char) : Option Nat :=
  if startsWithCI "tax" cs then some 3
  else if startsWithCI "pajak" cs then some 5
  else if startsWithCI "pb1" cs then some 3
  else none

/-- `(?:service|charge)` at the head. -/
def serviceKwLen (cs : List Char) : Option Nat :=
  if startsWithCI "service" cs then some 7
  else if startsWithCI "charge" cs then some 6
  else none

/-- `re.search` for `<keyword>.*?(?:Rp\.?|Rp)?\s*(<amount>)` with
`re.IGNORECASE`: scan every start position; at a keyword hit try the gap,
else move on. -/
def searchKwAmount (kwLen : List Char → Option Nat) : List Char → Option (List Char)
  | [] => none
  | c :: rest =>
    match kwLen (c :: rest) with
    | some n =>
      (match dotGapAmount ((c :: rest).drop n) with
       | some g1 => some g1
       | none => searchKwAmount kwLen rest)
    | none => searchKwAmount kwLen rest

/-- `re.search` for `(?:^|\s)total.*?(?:Rp\.?|Rp)?\s*(<amount>)`:
the anchor is start-of-string or a whitespace character (no
`re.MULTILINE`, so `^` is only position 0). -/
def searchTotalAux (i : Nat) : List Char → Option (List Char)
  | [] => none
  | c :: rest =>
    match
      (if i = 0 && startsWithCI "total" (c :: rest) then dotGapAmount ((c :: rest).drop 5)
       else none) with
    | some g => some g
    | none =>
      match (if isPySpace c && startsWithCI "total" rest then dotGapAmount (rest.drop 5)
             else none) with
      | some g => some g
      | none => searchTotalAux (i + 1) rest

structure Totals where
  subtotal : Option Q
  tax : Option Q
  service_charge : Option Q
  total : Option Q
  deriving DecidableEq, Repr

/-- `extract_totals`. -/
def extractTotals (full_text : String) : Totals :=
  let cs := full_text.data
  { subtotal := (searchKwAmount subtotalKwLen cs).map (fun g => fixPriceFormat (String.mk g))
    tax := (searchKwAmount taxKwLen cs).map (fun g => fixPriceFormat (String.mk g))
    service_charge := (searchKwAmount serviceKwLen cs).map (fun g => fixPriceFormat (String.mk g))
    total := (searchTotalAux 0 cs).map (fun g => fixPriceFormat (String.mk g)) }

/-- `sum(item['price'] for item in items)`. -/
def sumPrices (items : List Item) : Q := (items.map Item.price).foldl (fun a b => a + b) 0

/-- `calculate_total`. -/
def calculateTotal (items : List Item) (totals : Totals) : Q :=
  match totals.total with
  | some t => t
  | none =>
    let s0 := sumPrices items
    let s1 :=
      match totals.tax with
      | some t => s0 + t
      | none => s0
    match totals.service_charge with
    | some c => s1 + c
    | none => s1

/-! ## `process_receipt` (lines 875-938) over the token stream -/

inductive PResult where
  | failure (error : String)
  | ok (merchant_name : String) (receipt_type : String) (date : String) (time : String)
      (items : List Item) (subtotal : Option Q) (tax : Option Q) (service_charge : Option Q)
      (total : Q) (payment_method : String) (raw_text : String)
  deriving DecidableEq, Repr

def PResult.isSuccess : PResult → Bool
  | .failure _ => false
  | .ok _ _ _ _ _ _ _ _ _ _ _ => true

def PResult.totalQ : PResult → Q
  | .failure _ => 0
  | .ok _ _ _ _ _ _ _ _ t _ _ => t

def PResult.itemsOf : PResult → List Item
  | .failure _ => []
  | .ok _ _ _ _ its _ _ _ _ _ _ => its

/-- `process_receipt` starting from the OCR token stream (`extract_text`
yields the token list and the newline-joined full text in detection
order; an empty stream short-circuits to the failure record, which
carries nothing but the error message). -/
def processReceipt (text_results : List Token) : PResult :=
  let full_text := String.intercalate "\n" (text_results.map Token.text)
  if text_results.isEmpty then .failure "No text detected in the image"
  else
    let receipt_type := identifyReceiptType full_text
    let merchant_name := extractMerchantName text_results receipt_type
    let dt := extractDateTime full_text
    let items := extractItems text_results receipt_type full_text
    let totals := extractTotals full_text
    let total := calculateTotal items totals
    let payment_method := extractPaymentMethod full_text
    .ok merchant_name receipt_type dt.1 dt.2 items totals.subtotal totals.tax
      totals.service_charge total payment_method full_text

/-! ## Helper lemmas: nonnegativity of every price the pipeline builds -/

theorem Q.not_lt_of_le {a b : Q} (h : a ≤ b) : ¬b < a := by
  rw [Q.le_def] at h; rw [Q.lt_def]; omega

theorem Q.le_refl (a : Q) : a ≤ a := by rw [Q.le_def]

theorem parseFloatQ_nonneg {cs : List Char} {q : Q} (h : parseFloatQ cs = some q) : 0 ≤ q := by
  unfold parseFloatQ at h
  dsimp only at h
  split at h
  · exact absurd h (by simp)
  · split at h
    · exact absurd h (by simp)
    · split at h
      · split at h
        · exact absurd h (by simp)
        · cases h
          exact mkQ_nonneg _ (Int.natCast_nonneg _)
      · split at h
        · exact absurd h (by simp)
        · cases h
          exact mkQ_nonneg _ (Int.natCast_nonneg _)

theorem priceHeuristic_nonneg {p : Q} (h : 0 ≤ p) : 0 ≤ priceHeuristic p := by
  unfold priceHeuristic
  split
  · exact Q.mul_nonneg h (by decide)
  · exact h

theorem fixPriceFormat_nonneg (s : String) : 0 ≤ fixPriceFormat s := by
  unfold fixPriceFormat
  cases hp : parseFloatQ (priceSepNormalize (priceClean s)) with
  | none => exact Q.le_refl 0
  | some p => exact priceHeuristic_nonneg (parseFloatQ_nonneg hp)

theorem foldl_add_nonneg : ∀ (l : List Q) (acc : Q), 0 ≤ acc → (∀ x ∈ l, 0 ≤ x) →
    0 ≤ l.foldl (fun a b => a + b) acc
  | [], acc, hacc, _ => hacc
  | x :: l, acc, hacc, hl => by
    have hx : 0 ≤ x := hl x (List.mem_cons_self _ _)
    exact foldl_add_nonneg l (acc + x) (Q.add_nonneg hacc hx)
      (fun y hy => hl y (List.mem_cons_of_mem _ hy))

theorem sumPrices_nonneg (items : List Item) (h : ∀ it ∈ items, 0 ≤ it.price) :
    0 ≤ sumPrices items := by
  unfold sumPrices
  refine foldl_add_nonneg _ _ (Q.le_refl 0) ?_
  intro x hx
  rw [List.mem_map] at hx
  obtain ⟨it, hit, rfl⟩ := hx
  exact h it hit

theorem genericItemAt_price {sorted : List Token} {i : Nat} {it : Item}
    (h : genericItemAt sorted i = some it) : 0 ≤ it.price := by
  unfold genericItemAt at h
  dsimp only at h
  repeat' split at h
  all_goals try exact Option.noConfusion h
  all_goals (injection h with hh; subst hh)
  all_goals
    first
    | exact fixPriceFormat_nonneg _
    | (apply Q.le_of_lt; assumption)
    | (apply Q.le_of_lt; simp_all)

theorem altItemAt_price {lines : List String} {i : Nat} {it : Item}
    (h : altItemAt lines i = some it) : 0 ≤ it.price := by
  unfold altItemAt at h
  dsimp only at h
  repeat' split at h
  all_goals try exact Option.noConfusion h
  all_goals (injection h with hh; subst hh)
  all_goals
    first
    | exact fixPriceFormat_nonneg _
    | (apply Q.le_of_lt; assumption)
    | (apply Q.le_of_lt; simp_all)

theorem sushigoItemAt_price {lines : List String} {i : Nat} {it : Item}
    (h : sushigoItemAt lines i = some it) : 0 ≤ it.price := by
  unfold sushigoItemAt at h
  dsimp only at h
  repeat' split at h
  all_goals try exact Option.noConfusion h
  all_goals (injection h with hh; subst hh)
  all_goals
    first
    | exact fixPriceFormat_nonneg _
    | (apply Q.le_of_lt; assumption)
    | (apply Q.le_of_lt; simp_all)

theorem gomachiItemAt_price {lines : List String} {i : Nat} {it : Item}
    (h : gomachiItemAt lines i = some it) : 0 ≤ it.price := by
  unfold gomachiItemAt at h
  dsimp only at h
  repeat' split at h
  all_goals try exact Option.noConfusion h
  all_goals (injection h with hh; subst hh)
  all_goals
    first
    | exact fixPriceFormat_nonneg _
    | (apply Q.le_of_lt; assumption)
    | (apply Q.le_of_lt; simp_all)

theorem chatimeItemAt_price {lines : List String} {i : Nat} {it : Item}
    (h : chatimeItemAt lines i = some it) : 0 ≤ it.price := by
  unfold chatimeItemAt at h
  dsimp only at h
  repeat' split at h
  all_goals try exact Option.noConfusion h
  all_goals (injection h with hh; subst hh)
  all_goals
    first
    | exact fixPriceFormat_nonneg _
    | (apply Q.le_of_lt; assumption)
    | (apply Q.le_of_lt; simp_all)

theorem chatime2ItemAt_price {lines : List String} {i : Nat} {it : Item}
    (h : chatime2ItemAt lines i = some it) : 0 ≤ it.price := by
  unfold chatime2ItemAt at h
  dsimp only at h
  repeat' split at h
  all_goals try exact Option.noConfusion h
  all_goals (injection h with hh; subst hh)
  all_goals
    first
    | exact fixPriceFormat_nonneg _
    | (apply Q.le_of_lt; assumption)
    | (apply Q.le_of_lt; simp_all)

theorem extractItemsFromChatimeReceipt_price {tr : List Token} {ft : String} {it : Item}
    (h : it ∈ extractItemsFromChatimeReceipt tr ft) : 0 ≤ it.price := by
  unfold extractItemsFromChatimeReceipt at h
  dsimp only at h
  split at h
  · rw [List.mem_filterMap] at h
    obtain ⟨i, _, hi⟩ := h
    exact chatime2ItemAt_price hi
  · rw [List.mem_filterMap] at h
    obtain ⟨i, _, hi⟩ := h
    exact chatimeItemAt_price hi

theorem extractItemsAlternative_price {ft rt : String} {it : Item}
    (h : it ∈ extractItemsAlternative ft rt) : 0 ≤ it.price := by
  unfold extractItemsAlternative at h
  dsimp only at h
  split at h
  · rw [List.mem_filterMap] at h
    obtain ⟨i, _, hi⟩ := h
    exact sushigoItemAt_price hi
  · split at h
    · rw [List.mem_filterMap] at h
      obtain ⟨i, _, hi⟩ := h
      exact gomachiItemAt_price hi
    · rw [List.mem_filterMap] at h
      obtain ⟨i, _, hi⟩ := h
      exact altItemAt_price hi

theorem extractItems_price {tr : List Token} {rt ft : String} {it : Item}
    (h : it ∈ extractItems tr rt ft) : 0 ≤ it.price := by
  unfold extractItems at h
  by_cases hrt : rt = "CHATIME"
  · rw [if_pos hrt] at h
    exact extractItemsFromChatimeReceipt_price h
  · rw [if_neg hrt] at h
    dsimp only at h
    repeat' split at h
    all_goals
      first
      | exact extractItemsAlternative_price h
      | (rw [List.mem_filterMap] at h
         obtain ⟨i, _, hi⟩ := h
         exact genericItemAt_price hi)

theorem totalsField_nonneg {o : Option (List Char)} {v : Q}
    (h : o.map (fun g => fixPriceFormat (String.mk g)) = some v) : 0 ≤ v := by
  cases o with
  | none => exact absurd h (by simp)
  | some g =>
    simp only [Option.map_some'] at h
    injection h with hh
    subst hh
    exact fixPriceFormat_nonneg _

theorem calculateTotal_nonneg (items : List Item) (totals : Totals)
    (hi : ∀ it ∈ items, 0 ≤ it.price)
    (ht : ∀ v, totals.tax = some v → 0 ≤ v)
    (hs : ∀ v, totals.service_charge = some v → 0 ≤ v)
    (hT : ∀ v, totals.total = some v → 0 ≤ v) :
    0 ≤ calculateTotal items totals := by
  unfold calculateTotal
  cases hv : totals.total with
  | some t => exact hT t hv
  | none =>
    dsimp only
    have h0 := sumPrices_nonneg items hi
    cases hx : totals.tax with
    | none =>
      cases hy : totals.service_charge with
      | none => exact h0
      | some c => exact Q.add_nonneg h0 (hs c hy)
    | some t =>
      have h1 := Q.add_nonneg h0 (ht t hx)
      cases hy : totals.service_charge with
      | none => exact h1
      | some c => exact Q.add_nonneg h1 (hs c hy)

theorem processReceipt_nonempty (t : Token) (ts' : List Token) :
    (processReceipt (t :: ts')).isSuccess = true ∧ 0 ≤ (processReceipt (t :: ts')).totalQ := by
  constructor
  · rfl
  · have heq : (processReceipt (t :: ts')).totalQ =
        calculateTotal
          (extractItems (t :: ts')
            (identifyReceiptType (String.intercalate "\n" ((t :: ts').map Token.text)))
            (String.intercalate "\n" ((t :: ts').map Token.text)))
          (extractTotals (String.intercalate "\n" ((t :: ts').map Token.text))) := rfl
    rw [heq]
    apply calculateTotal_nonneg
    · intro it hit
      exact extractItems_price hit
    · intro v hv
      exact totalsField_nonneg hv
    · intro v hv
      exact totalsField_nonneg hv
    · intro v hv
      exact totalsField_nonneg hv

/-! ## Helper lemmas for the anchored total regex (claim C9) -/

/-- Every case-insensitive occurrence of `total` in `s` sits inside the
single word `subtotal` (i.e. is immediately preceded by `sub`). -/
def totalOnlyInsideSubtotalWord (s : String) : Bool :=
  (List.range (s.data.length + 1)).all fun j =>
    !(startsWithCI "total" (s.data.drop j)) ||
      (decide (3 ≤ j) && startsWithCI "sub" (s.data.drop (j - 3)))

/-- The premise of claim C9 as stated: every occurrence of `total` sits
inside `subtotal` or inside `sub total`. -/
def c9ClaimPremise (s : String) : Bool :=
  (List.range (s.data.length + 1)).all fun j =>
    !(startsWithCI "total" (s.data.drop j)) ||
      ((decide (3 ≤ j) && startsWithCI "subtotal" (s.data.drop (j - 3))) ||
       (decide (4 ≤ j) && startsWithCI "sub total" (s.data.drop (j - 4))))

theorem startsWithL3 {a b c : Char} : ∀ {m : List Char}, startsWithL [a, b, c] m = true →
    ∃ tl, m = a :: b :: c :: tl := by
  intro m h
  match m with
  | [] => simp [startsWithL] at h
  | [x] => simp [startsWithL] at h
  | [x, y] => simp [startsWithL] at h
  | x :: y :: z :: tl =>
    simp [startsWithL] at h
    obtain ⟨h1, h2, h3⟩ := h
    subst h1; subst h2; subst h3
    exact ⟨tl, rfl⟩

theorem lowerC_of_space {c : Char} (h : isPySpace c = true) : lowerC c = c := by
  simp only [isPySpace, Bool.or_eq_true, decide_eq_true_eq] at h
  rcases h with ((((h | h) | h) | h) | h) | h <;> subst h <;> decide

theorem searchTotalAux_eq_none : ∀ (cs : List Char) (i : Nat),
    (i = 0 → startsWithCI "total" cs = false) →
    (∀ c rest j, cs.drop j = c :: rest → isPySpace c = true → startsWithCI "total" rest = false) →
    searchTotalAux i cs = none
  | [], _, _, _ => rfl
  | c :: rest, i, h1, h2 => by
    have hA : ¬(decide (i = 0) && startsWithCI "total" (c :: rest)) = true := by
      by_cases hi : i = 0
      · simp [hi, h1 hi]
      · simp [hi]
    have hB : ¬(isPySpace c && startsWithCI "total" rest) = true := by
      by_cases hws : isPySpace c = true
      · simp [hws, h2 c rest 0 rfl hws]
      · simp [hws]
    show searchTotalAux i (c :: rest) = none
    unfold searchTotalAux
    rw [if_neg hA, if_neg hB]
    dsimp only
    exact searchTotalAux_eq_none rest (i + 1)
      (by omega)
      (fun c' r' j hj hws => h2 c' r' (j + 1) (by simpa using hj) hws)

theorem extractTotals_total_none {s : String}
    (h : totalOnlyInsideSubtotalWord s = true) : (extractTotals s).total = none := by
  have hocc : ∀ j, startsWithCI "total" (s.data.drop j) = true →
      3 ≤ j ∧ startsWithCI "sub" (s.data.drop (j - 3)) = true := by
    intro j hj
    have hne : s.data.drop j ≠ [] := by
      intro hnil
      rw [hnil] at hj
      exact absurd hj (by decide)
    have hjlt : j < s.data.length := by
      by_contra hge
      exact hne (List.drop_eq_nil_of_le (by omega))
    unfold totalOnlyInsideSubtotalWord at h
    rw [List.all_eq_true] at h
    have := h j (by rw [List.mem_range]; omega)
    simp only [Bool.or_eq_true, Bool.not_eq_true', Bool.and_eq_true, decide_eq_true_eq] at this
    rcases this with hfalse | hok
    · rw [hj] at hfalse; cases hfalse
    · exact hok
  have hscan : searchTotalAux 0 s.data = none := by
    apply searchTotalAux_eq_none
    · intro _
      by_contra hT
      rw [Bool.not_eq_false] at hT
      have := (hocc 0 (by simpa using hT)).1
      omega
    · intro c rest j hj hws
      by_contra hT
      rw [Bool.not_eq_false] at hT
      have hrest : rest = s.data.drop (j + 1) := by
        have ht2 := List.tail_drop s.data j
        rw [hj] at ht2
        simpa using ht2
      have hT' : startsWithCI "total" (s.data.drop (j + 1)) = true := by
        rw [← hrest]; exact hT
      obtain ⟨h3, hsub⟩ := hocc (j + 1) hT'
      -- `sub` (case-insensitively) ends right where `c` sits, so `lowerC c = 'b'`
      unfold startsWithCI at hsub
      obtain ⟨tl, htl⟩ := startsWithL3 (a := 's') (b := 'u') (c := 'b') (by exact hsub)
      have e1 : ((s.data.drop (j + 1 - 3)).map lowerC).drop 2 = 'b' :: tl := by
        rw [htl]
        rfl
      have e2 : (s.data.drop j).map lowerC = 'b' :: tl := by
        rw [List.map_drop] at e1 ⊢
        rw [List.drop_drop] at e1
        have hj2 : j + 1 - 3 + 2 = j := by omega
        rw [hj2] at e1
        exact e1
      rw [hj] at e2
      simp only [List.map_cons] at e2
      have hcb : lowerC c = 'b' := by
        injection e2
      have hlc := lowerC_of_space hws
      rw [hlc] at hcb
      subst hcb
      exact absurd hws (by decide)
  show (searchTotalAux 0 s.data).map _ = none
  rw [hscan]
  rfl

/-! ## Helper lemmas for the merchant-name extractor (claim C8) -/

/-- A token matches its receipt type's name aliases (the conditions of
the branch chain in `extract_merchant_name`). -/
def merchantTokenHit (rt : String) (tx : String) : Bool :=
  (decide (rt = "GOMACHI") && (containsStr tx "Gomachi" || containsStr tx "GOMACHI" || containsStr tx "Gemachi")) ||
  (decide (rt = "CHATIME") && (containsStr tx "Chatime" || containsStr tx "CHATIME" || containsStr tx "Chatine")) ||
  (decide (rt = "SUSHIGO") && (containsStr tx "SUSHIGO" || containsStr tx "Sushigo")) ||
  (decide (rt = "HOKBEN") && (containsStr tx "HOKBEN" || containsStr tx "HokBen")) ||
  (decide (rt = "INDOMARET") && (containsStr tx "INDOMARET" || containsStr tx "Indomaret")) ||
  (decide (rt = "WARUNG_CE") && (containsStr tx "Warung Ce" || containsStr tx "WARUNG CE"))

/-- What the extractor returns for a matched token: the fixed literals
for Gomachi/Chatime, the token's own text for the other four types. -/
def merchantHitResult (rt : String) (t : Token) : String :=
  if rt = "GOMACHI" then "Gomachi" else if rt = "CHATIME" then "Chatime" else t.text

theorem merchantScan_eq_find (rt : String) : ∀ ts : List Token,
    merchantScan rt ts =
      (ts.find? (fun t => merchantTokenHit rt t.text)).map (merchantHitResult rt) := by
  intro ts
  induction ts with
  | nil => rfl
  | cons t ts ih =>
    unfold merchantScan
    rw [List.find?_cons]
    by_cases h1 : rt = "GOMACHI"
    · subst h1
      by_cases hc : (containsStr t.text "Gomachi" || containsStr t.text "GOMACHI" ||
          containsStr t.text "Gemachi") = true
      · simp [merchantTokenHit, merchantHitResult, hc]
      · rw [Bool.not_eq_true] at hc
        simp only [Bool.or_eq_false_iff] at hc
        obtain ⟨⟨ha, hb⟩, hcc⟩ := hc
        simp [merchantTokenHit, merchantHitResult, ha, hb, hcc, ih]
    · by_cases h2 : rt = "CHATIME"
      · subst h2
        by_cases hc : (containsStr t.text "Chatime" || containsStr t.text "CHATIME" ||
            containsStr t.text "Chatine") = true
        · simp [merchantTokenHit, merchantHitResult, hc]
        · rw [Bool.not_eq_true] at hc
          simp only [Bool.or_eq_false_iff] at hc
          obtain ⟨⟨ha, hb⟩, hcc⟩ := hc
          simp [merchantTokenHit, merchantHitResult, ha, hb, hcc, ih]
      · by_cases h3 : rt = "SUSHIGO"
        · subst h3
          by_cases hc : (containsStr t.text "SUSHIGO" || containsStr t.text "Sushigo") = true
          · simp [merchantTokenHit, merchantHitResult, hc]
          · rw [Bool.not_eq_true] at hc
            simp only [Bool.or_eq_false_iff] at hc
            obtain ⟨ha, hb⟩ := hc
            simp [merchantTokenHit, merchantHitResult, ha, hb, ih]
        · by_cases h4 : rt = "HOKBEN"
          · subst h4
            by_cases hc : (containsStr t.text "HOKBEN" || containsStr t.text "HokBen") = true
            · simp [merchantTokenHit, merchantHitResult, hc]
            · rw [Bool.not_eq_true] at hc
              simp only [Bool.or_eq_false_iff] at hc
              obtain ⟨ha, hb⟩ := hc
              simp [merchantTokenHit, merchantHitResult, ha, hb, ih]
          · by_cases h5 : rt = "INDOMARET"
            · subst h5
              by_cases hc : (containsStr t.text "INDOMARET" || containsStr t.text "Indomaret") = true
              · simp [merchantTokenHit, merchantHitResult, hc]
              · rw [Bool.not_eq_true] at hc
                simp only [Bool.or_eq_false_iff] at hc
                obtain ⟨ha, hb⟩ := hc
                simp [merchantTokenHit, merchantHitResult, ha, hb, ih]
            · by_cases h6 : rt = "WARUNG_CE"
              · subst h6
                by_cases hc : (containsStr t.text "Warung Ce" || containsStr t.text "WARUNG CE") = true
                · simp [merchantTokenHit, merchantHitResult, hc]
                · rw [Bool.not_eq_true] at hc
                  simp only [Bool.or_eq_false_iff] at hc
                  obtain ⟨ha, hb⟩ := hc
                  simp [merchantTokenHit, merchantHitResult, ha, hb, ih]
              · simp [merchantTokenHit, merchantHitResult, h1, h2, h3, h4, h5, h6, ih]

/-! ## Helper lemmas for the price normalizer (claims C4, C5, C10) -/

/-- A canonical decimal rendering: digits, one dot, digits (the shape of
Python's `str` on the finite floats this pipeline produces). -/
def canonicalDec (s : String) : Bool :=
  !s.data.isEmpty &&
  decide ((s.data.filter (fun c => c = '.')).length = 1) &&
  (chAt s.data 0).isDigit &&
  (s.data.getLastD '\x00').isDigit &&
  s.data.all (fun c => c.isDigit || c = '.')

/-- Python `str()` of a nonnegative exact-decimal float: integer part,
a dot, fractional digits with trailing zeros stripped (at least one). -/
def renderQ (q : Q) : String :=
  if q.den = 1 then
    (if q.num < 0 then "-" else "") ++ natToStr q.num.natAbs ++ ".0"
  else
    match (List.range (q.den + 1)).find? (fun k => decide ((10 ^ k) % q.den = 0)) with
    | some k =>
      let scaled := q.num.natAbs * 10 ^ k / q.den
      let ds0 := natToDigits scaled
      let ds := if ds0.length ≤ k then List.replicate (k + 1 - ds0.length) '0' ++ ds0 else ds0
      let ip := ds.take (ds.length - k)
      let fp0 := ds.drop (ds.length - k)
      let fp1 := (fp0.reverse.dropWhile (fun c => c = '0')).reverse
      let fp := if fp1.isEmpty then ['0'] else fp1
      (if q.num < 0 then "-" else "") ++ String.mk (ip ++ '.' :: fp)
    | none => ""

theorem priceHeuristic_of_large {v : Q} (hv : v = 0 ∨ 1000 ≤ v) : priceHeuristic v = v := by
  unfold priceHeuristic
  split
  · rename_i hsmall
    obtain ⟨hpos, hlt⟩ := hsmall
    rcases hv with rfl | hge
    · rw [Q.lt_def] at hpos
      omega
    · exact absurd hlt (Q.not_lt_of_le hge)
  · rfl

theorem canonicalDec_fix {r : String} {v : Q} (hc : canonicalDec r = true)
    (hp : parseFloatQ r.data = some v) (hv : v = 0 ∨ 1000 ≤ v) :
    fixPriceFormat r = v := by
  unfold canonicalDec at hc
  simp only [Bool.and_eq_true] at hc
  obtain ⟨⟨⟨⟨_, _⟩, _⟩, _⟩, hall⟩ := hc
  have hall' : ∀ c ∈ r.data, (c.isDigit || c = '.') = true := by
    rw [← List.all_eq_true]
    exact hall
  have hclean : priceClean r = r.data := by
    unfold priceClean
    apply List.filter_eq_self.mpr
    intro c hcmem
    have := hall' c hcmem
    simp only [Bool.or_eq_true] at this ⊢
    tauto
  have hnocomma : r.data.contains ',' = false := by
    by_contra hcc
    rw [Bool.not_eq_false] at hcc
    have hmem : ',' ∈ r.data := by simpa using hcc
    have := hall' ',' hmem
    simp at this
  have hsep : priceSepNormalize (priceClean r) = r.data := by
    unfold priceSepNormalize
    rw [hclean, hnocomma]
    simp
  unfold fixPriceFormat
  rw [hsep, hp]
  exact priceHeuristic_of_large hv

theorem priceSepNormalize_comma_only {cs : List Char} (h1 : cs.contains ',' = true)
    (h2 : cs.contains '.' = false) :
    (endsWithL [',', '0', '0'] cs || endsWithL [',', '0'] cs) = true ↔
      priceSepNormalize cs = cs.map (fun c => if c = ',' then '.' else c) := by
  have hred : priceSepNormalize cs =
      (if (endsWithL [',', '0', '0'] cs || endsWithL [',', '0'] cs) = true then
        cs.map (fun c => if c = ',' then '.' else c)
      else cs.filter (fun c => c ≠ ',')) := by
    unfold priceSepNormalize
    rw [h1, h2]
    rfl
  rw [hred]
  constructor
  · intro hend
    rw [if_pos hend]
  · intro heq
    by_contra hnend
    rw [Bool.not_eq_true] at hnend
    rw [if_neg (by rw [hnend]; simp)] at heq
    have hlt : (cs.filter (fun c => c ≠ ',')).length < cs.length := by
      apply List.length_filter_lt_length_iff_exists.mpr
      exact ⟨',', by simpa using h1, by simp⟩
    rw [heq] at hlt
    rw [List.length_map] at hlt
    omega

theorem priceSepNormalize_both {cs : List Char} (h1 : cs.contains ',' = true)
    (h2 : cs.contains '.' = true) :
    priceSepNormalize cs = (cs.filter (fun c => c ≠ '.')).map (fun c => if c = ',' then '.' else c) := by
  unfold priceSepNormalize
  rw [h1, h2]
  simp

theorem priceSepNormalize_no_comma {cs : List Char} (h : cs.contains ',' = false) :
    priceSepNormalize cs = cs := by
  unfold priceSepNormalize
  rw [h]
  simp

/-! ## The claims -/

set_option maxRecDepth 8000

/-- Claim C1 (confirmed): for the empty token stream the pipeline returns
a result with `success = false` and error exactly
`"No text detected in the image"`, performs no further stages and
populates no other fields (the failure constructor carries nothing but
the error message). -/
theorem c1_empty_stream :
    processReceipt [] = PResult.failure "No text detected in the image" := rfl

/-- Claim C2 (confirmed): for every non-empty token stream the result has
`success = true` (the failure branch is unreachable) and its total is
nonnegative. -/
theorem c2_nonempty_success_total (ts : List Token) (h : ts ≠ []) :
    (processReceipt ts).isSuccess = true ∧ 0 ≤ (processReceipt ts).totalQ := by
  match ts, h with
  | t :: ts', _ => exact processReceipt_nonempty t ts'

/-- Witness for C2 at the one-token stream `["A"]`. -/
theorem c2_witness :
    ([⟨"A", 0⟩] : List Token) ≠ [] ∧
      ((processReceipt [⟨"A", 0⟩]).isSuccess = true ∧ 0 ≤ (processReceipt [⟨"A", 0⟩]).totalQ) :=
  ⟨by decide, c2_nonempty_success_total [⟨"A", 0⟩] (by decide)⟩

/-- The token stream of claim C3, in top-to-bottom order. -/
def c3Tokens : List Token :=
  [⟨"GOMACHI RESTO", 0⟩, ⟨"2 GYOZA 25.000", 1⟩, ⟨"TOTAL 25.000", 2⟩]

/-- Claim C3 is falsified on its own scenario: the single extracted item
is named `"GYOZA 25.000"`, not `"GYOZA"` (the Gomachi fallback scan
appends `line.strip()` as the name, not the cleaned name). -/
theorem c3_counterexample :
    (processReceipt c3Tokens).itemsOf.map Item.name = ["GYOZA 25.000"] ∧
      "GYOZA 25.000" ≠ "GYOZA" := by
  constructor
  · decide
  · decide

/-- Claim C3 (amended): the scenario stream yields
`receiptType = "GOMACHI"`, exactly one item with name `"GYOZA 25.000"`
(the raw stripped line, not `"GYOZA"`), quantity 2, price 25000.0,
category FOOD, and total 25000.0. -/
theorem c3_amended :
    processReceipt c3Tokens =
      PResult.ok "Gomachi" "GOMACHI" "2 GYOZA 25" ""
        [⟨"GYOZA 25.000", 2, qd 25000 0, "FOOD"⟩] none none none (qd 25000 0) "UNKNOWN"
        "GOMACHI RESTO\n2 GYOZA 25.000\nTOTAL 25.000" := by decide

/-- Claim C4 (confirmed): the separator disambiguation of the price
normalizer (dot = thousands and comma = decimal when both occur; a lone
comma is decimal exactly when the string ends in `,00` or `,0`), the
sub-1000 correction, and the three quoted values. -/
theorem c4_price_normalizer :
    fixPriceFormat "1.000,50" = qd 100050 2 ∧
    fixPriceFormat "1,000" = qd 1000 0 ∧
    fixPriceFormat "500" = qd 500000 0 ∧
    (∀ p : Q, 0 < p → p < 1000 → priceHeuristic p = p * 1000) ∧
    (∀ cs : List Char, cs.contains ',' = true → cs.contains '.' = false →
      ((endsWithL [',', '0', '0'] cs || endsWithL [',', '0'] cs) = true ↔
        priceSepNormalize cs = cs.map (fun c => if c = ',' then '.' else c))) ∧
    (∀ cs : List Char, cs.contains ',' = true → cs.contains '.' = true →
      priceSepNormalize cs =
        (cs.filter (fun c => c ≠ '.')).map (fun c => if c = ',' then '.' else c)) := by
  refine ⟨by decide, by decide, by decide, ?_, ?_, ?_⟩
  · intro p h0 h1
    unfold priceHeuristic
    rw [if_pos ⟨h0, h1⟩]
  · intro cs h1 h2
    exact priceSepNormalize_comma_only h1 h2
  · intro cs h1 h2
    exact priceSepNormalize_both h1 h2

/-- Witness for C4's quantified conjuncts at `0.5`, `"1,0"` and
`"1.000,50"`. -/
theorem c4_witness :
    priceHeuristic (qd 5 1) = qd 5 1 * 1000 ∧
    ((endsWithL [',', '0', '0'] "1,0".data || endsWithL [',', '0'] "1,0".data) = true ↔
      priceSepNormalize "1,0".data = "1,0".data.map (fun c => if c = ',' then '.' else c)) ∧
    priceSepNormalize "1.000,50".data =
      ("1.000,50".data.filter (fun c => c ≠ '.')).map (fun c => if c = ',' then '.' else c) :=
  ⟨c4_price_normalizer.2.2.2.1 _ (by decide) (by decide),
   c4_price_normalizer.2.2.2.2.1 _ (by decide) (by decide),
   c4_price_normalizer.2.2.2.2.2 _ (by decide) (by decide)⟩

/-- Claim C5 is falsified: `"0.5"` matches the amount pattern, normalizes
to `500.0` (the sub-1000 correction), whose decimal rendering `"500.0"`
re-normalizes to `500000.0`, not `500.0`. -/
theorem c5_counterexample :
    amountFullMatch "0.5" = true ∧
    fixPriceFormat "0.5" = qd 500 0 ∧
    renderQ (fixPriceFormat "0.5") = "500.0" ∧
    fixPriceFormat (renderQ (fixPriceFormat "0.5")) = qd 500000 0 ∧
    fixPriceFormat (renderQ (fixPriceFormat "0.5")) ≠ fixPriceFormat "0.5" := by
  refine ⟨by decide, by decide, by decide, by decide, by decide⟩

/-- Claim C5 (amended): re-normalizing a canonical decimal rendering
(digits, one dot, digits) returns the same value exactly for outputs that
are 0 or at least 1000; outputs in (0, 1000) are reachable (e.g. from
`"0.5"`) and are multiplied by 1000 again. -/
theorem c5_amended (r : String) (v : Q) (hc : canonicalDec r = true)
    (hp : parseFloatQ r.data = some v) (hv : v = 0 ∨ 1000 ≤ v) :
    fixPriceFormat r = v :=
  canonicalDec_fix hc hp hv

/-- Witness for C5 at the claim's own example `"12345.0"`. -/
theorem c5_witness :
    canonicalDec "12345.0" = true ∧
    parseFloatQ "12345.0".data = some (qd 12345 0) ∧
    fixPriceFormat "12345.0" = qd 12345 0 :=
  ⟨by decide, by decide,
   c5_amended "12345.0" (qd 12345 0) (by decide) (by decide) (Or.inr (by decide))⟩

/-- Claim C6 (confirmed): when no explicit total is extracted, the total
is the sum of item prices plus tax (if present) plus service charge (if
present); absent subtotal/tax/service stay `none` exactly when their
keyword searches fail; and the quoted example computes 38500. -/
theorem c6_total_reconciliation :
    (∀ (items : List Item) (sub : Option Q),
        calculateTotal items ⟨sub, none, none, none⟩ = sumPrices items) ∧
    (∀ (items : List Item) (sub : Option Q) (tv : Q),
        calculateTotal items ⟨sub, some tv, none, none⟩ = sumPrices items + tv) ∧
    (∀ (items : List Item) (sub : Option Q) (sv : Q),
        calculateTotal items ⟨sub, none, some sv, none⟩ = sumPrices items + sv) ∧
    (∀ (items : List Item) (sub : Option Q) (tv sv : Q),
        calculateTotal items ⟨sub, some tv, some sv, none⟩ = sumPrices items + tv + sv) ∧
    (∀ ft : String,
        ((extractTotals ft).subtotal = none ↔ searchKwAmount subtotalKwLen ft.data = none) ∧
        ((extractTotals ft).tax = none ↔ searchKwAmount taxKwLen ft.data = none) ∧
        ((extractTotals ft).service_charge = none ↔
          searchKwAmount serviceKwLen ft.data = none)) ∧
    calculateTotal [⟨"a", 1, qd 10000 0, "OTHER"⟩, ⟨"b", 1, qd 25000 0, "OTHER"⟩]
        ⟨none, some (qd 2000 0), some (qd 1500 0), none⟩ = qd 38500 0 := by
  refine ⟨fun _ _ => rfl, fun _ _ _ => rfl, fun _ _ _ => rfl, fun _ _ _ _ => rfl, ?_, by decide⟩
  intro ft
  refine ⟨?_, ?_, ?_⟩
  all_goals
    show Option.map _ _ = none ↔ _
    cases hs : searchKwAmount _ ft.data
    · simp
    · simp

/-- The token stream of the C7 counterexample. -/
def c7Tokens : List Token := [⟨"CHATIME", 0⟩, ⟨"-3x COLA", 1⟩, ⟨"25.000", 2⟩]

/-- The newline-joined text of the C7 counterexample stream. -/
def c7Text : String := "CHATIME\n-3x COLA\n25.000"

/-- Claim C7 is falsified: the Chatime fallback strategy `int`-parses the
signed prefix before `x`, so this stream yields an item with quantity
`-3 < 1`. -/
theorem c7_counterexample :
    identifyReceiptType c7Text = "CHATIME" ∧
    String.intercalate "\n" (c7Tokens.map Token.text) = c7Text ∧
    extractItems c7Tokens "CHATIME" c7Text = [⟨"COLA", -3, qd 25000 0, "OTHER"⟩] ∧
    ¬(1 ≤ (-3 : Int)) := by
  refine ⟨by decide, by decide, by decide, by decide⟩

/-- Claim C7 (amended): every item produced by any extraction strategy
has a nonnegative price; the quantity bound fails (the generic strategies
can yield 0 and the Chatime fallback even negative quantities). -/
theorem c7_amended (tr : List Token) (rt ft : String) :
    (∀ it ∈ extractItems tr rt ft, 0 ≤ it.price) ∧
    (∀ it ∈ extractItemsAlternative ft rt, 0 ≤ it.price) ∧
    (∀ it ∈ extractItemsFromChatimeReceipt tr ft, 0 ≤ it.price) :=
  ⟨fun _ h => extractItems_price h,
   fun _ h => extractItemsAlternative_price h,
   fun _ h => extractItemsFromChatimeReceipt_price h⟩

/-- Witness for C7 on the Gomachi scenario stream. -/
theorem c7_witness :
    (⟨"GYOZA 25.000", 2, qd 25000 0, "FOOD"⟩ : Item) ∈
        extractItems [⟨"GOMACHI RESTO", 0⟩, ⟨"2 GYOZA 25.000", 1⟩, ⟨"TOTAL 25.000", 2⟩]
          "GOMACHI" "GOMACHI RESTO\n2 GYOZA 25.000\nTOTAL 25.000" ∧
      0 ≤ (⟨"GYOZA 25.000", 2, qd 25000 0, "FOOD"⟩ : Item).price :=
  ⟨by decide,
   (c7_amended [⟨"GOMACHI RESTO", 0⟩, ⟨"2 GYOZA 25.000", 1⟩, ⟨"TOTAL 25.000", 2⟩]
      "GOMACHI" "GOMACHI RESTO\n2 GYOZA 25.000\nTOTAL 25.000").1 _ (by decide)⟩

/-- Claim C8 is falsified: with receipt type GOMACHI and a first token
containing the alias `GOMACHI`, the extractor returns the fixed literal
`"Gomachi"`, not that token's text. -/
theorem c8_counterexample :
    extractMerchantName [⟨"GOMACHI RESTO", 0⟩] "GOMACHI" = "Gomachi" ∧
    containsStr "GOMACHI RESTO" "GOMACHI" = true ∧
    "Gomachi" ≠ "GOMACHI RESTO" := by
  refine ⟨by decide, by decide, by decide⟩

/-- Claim C8 (amended): over the first five sorted tokens, the first
token matching its type's aliases determines the result — the fixed
literals `"Gomachi"`/`"Chatime"` for those two types and the token's own
text for SUSHIGO/HOKBEN/INDOMARET/WARUNG_CE; with no match (in
particular for UNKNOWN) the first token's text is returned verbatim, and
`"Unknown Merchant"` for an empty stream. -/
theorem c8_amended (ts : List Token) (rt : String) :
    extractMerchantName ts rt =
      match ((sortTokens ts).take 5).find? (fun t => merchantTokenHit rt t.text) with
      | some t => merchantHitResult rt t
      | none =>
        match sortTokens ts with
        | [] => "Unknown Merchant"
        | t :: _ => t.text := by
  unfold extractMerchantName
  dsimp only
  rw [merchantScan_eq_find]
  cases hf : ((sortTokens ts).take 5).find? (fun t => merchantTokenHit rt t.text) with
  | none => rfl
  | some t => rfl

/-- Claim C9 is falsified: in `"SUB TOTAL 25.000"` the word `total`
occurs only inside the subtotal keyword `sub total`, yet the total regex
(anchored on whitespace-or-start, not on a line start) matches it and
extracts 25000. -/
theorem c9_counterexample :
    c9ClaimPremise "SUB TOTAL 25.000" = true ∧
    (extractTotals "SUB TOTAL 25.000").total = some (qd 25000 0) ∧
    (extractTotals "SUB TOTAL 25.000").total ≠ none := by
  refine ⟨by decide, by decide, by decide⟩

/-- Claim C9 (amended): the total regex anchors `total` at the start of
the text or after a whitespace character, so when every occurrence of
`total` sits inside the single word `subtotal` (preceded by `sub`), no
total is extracted; an occurrence inside `sub total` is matched, since
the space before `total` satisfies the anchor. -/
theorem c9_amended (ft : String) (h : totalOnlyInsideSubtotalWord ft = true) :
    (extractTotals ft).total = none :=
  extractTotals_total_none h

/-- Witness for C9 at `"SUBTOTAL 25.000"` (subtotal extracted, total
not). -/
theorem c9_witness :
    totalOnlyInsideSubtotalWord "SUBTOTAL 25.000" = true ∧
    (extractTotals "SUBTOTAL 25.000").total = none :=
  ⟨by decide, c9_amended "SUBTOTAL 25.000" (by decide)⟩

/-- Claim C10 (confirmed): an amount with `.` but no `,` is passed to the
float parser unchanged; `"25.000"` parses as 25.0 and the sub-1000
correction yields 25000.0, while `"1.000.000"` fails to parse and the
normalizer returns 0.0. -/
theorem c10_dot_only :
    (∀ s : String, (priceClean s).contains ',' = false →
        priceSepNormalize (priceClean s) = priceClean s) ∧
    priceClean "25.000" = "25.000".data ∧
    parseFloatQ "25.000".data = some (qd 25 0) ∧
    fixPriceFormat "25.000" = qd 25000 0 ∧
    priceClean "1.000.000" = "1.000.000".data ∧
    parseFloatQ "1.000.000".data = none ∧
    fixPriceFormat "1.000.000" = 0 := by
  refine ⟨?_, by decide, by decide, by decide, by decide, by decide, by decide⟩
  intro s h
  exact priceSepNormalize_no_comma h

/-- Witness for C10's quantified conjunct at `"25.000"`. -/
theorem c10_witness :
    priceSepNormalize (priceClean "25.000") = priceClean "25.000" :=
  c10_dot_only.1 "25.000" (by decide)

end Receipt




